import Mathlib

/-! Wearable crash sensing device: smoothing core and sensor drivers.

A shallow embedding of `Sensor`, `Accelerometer` and `Gyroscope`
(`Sensor.h/.cpp`, `Accelerometer.h/.cpp`, `Gyroscope.h/.cpp`).

* `double` values are rationals in the main embedding, which therefore describes
  the program in exact arithmetic.  `Binary64` embeds the smoothing core a
  second time with IEEE-754 binary64 values (round to nearest, ties to even,
  overflow to infinity), which is what the program computes.
* `int valueIndex` is an `Int`; the arrays `double xReadings[8]` are functions
  `Fin 8 → ℚ`.  An access `xReadings[valueIndex]` outside the array is undefined
  behaviour in the source and `none` here.
* Hardware (the ADC, the I2C bus) is an explicit argument of the operations that
  read it.
-/

namespace WearableCrash

/-! ## Sensor -/

/-- Data members of `class Sensor` (`Sensor.h`), without the constant `NUM_READINGS`. -/
structure Sensor where
  valueIndex : Int
  xReadings : Fin 8 → ℚ
  xTotal : ℚ
  xAverage : ℚ
  xZero : ℚ
  yReadings : Fin 8 → ℚ
  yTotal : ℚ
  yAverage : ℚ
  yZero : ℚ
  zReadings : Fin 8 → ℚ
  zTotal : ℚ
  zAverage : ℚ
  zZero : ℚ
  name : String
  xCalculated : ℚ
  yCalculated : ℚ
  zCalculated : ℚ

namespace Sensor

/-- The member `const int NUM_READINGS`, which the only constructor sets to 8. -/
def NUM_READINGS : Int := 8

/-- Constructor `Sensor::Sensor()`: the body assigns `valueIndex` and nothing else, so every
other member keeps what the object's storage `mem` held before construction. -/
def ctor (mem : Sensor) : Sensor :=
  { mem with valueIndex := 0 }

/-- Storage in which every member is zero (an object of static storage duration
before its constructor runs). -/
def zeroStorage : Sensor where
  valueIndex := 0
  xReadings := fun _ => 0
  xTotal := 0
  xAverage := 0
  xZero := 0
  yReadings := fun _ => 0
  yTotal := 0
  yAverage := 0
  yZero := 0
  zReadings := fun _ => 0
  zTotal := 0
  zAverage := 0
  zZero := 0
  name := ""
  xCalculated := 0
  yCalculated := 0
  zCalculated := 0

/-- A Sensor constructed in zeroed storage. -/
def fresh : Sensor := ctor zeroStorage

/-- Method `Sensor::readPins(double, double, double)`, statement by statement.  The
array accesses need `0 ≤ valueIndex < 8`; otherwise the result is `none`. -/
def readPins (s : Sensor) (readX readY readZ : ℚ) : Option Sensor :=
  if h : 0 ≤ s.valueIndex ∧ s.valueIndex < 8 then
    let i : Fin 8 := ⟨s.valueIndex.toNat, by omega⟩
    let xTotal := s.xTotal - s.xReadings i
    let yTotal := s.yTotal - s.yReadings i
    let zTotal := s.zTotal - s.zReadings i
    let xReadings := Function.update s.xReadings i readX
    let yReadings := Function.update s.yReadings i readY
    let zReadings := Function.update s.zReadings i readZ
    let xTotal := xTotal + xReadings i
    let yTotal := yTotal + yReadings i
    let zTotal := zTotal + zReadings i
    let xAverage := xTotal / (NUM_READINGS : ℚ)
    let yAverage := yTotal / (NUM_READINGS : ℚ)
    let zAverage := zTotal / (NUM_READINGS : ℚ)
    let valueIndex := s.valueIndex + 1
    let valueIndex := if valueIndex ≥ NUM_READINGS then 0 else valueIndex
    some { s with
      valueIndex := valueIndex
      xReadings := xReadings, xTotal := xTotal, xAverage := xAverage
      yReadings := yReadings, yTotal := yTotal, yAverage := yAverage
      zReadings := zReadings, zTotal := zTotal, zAverage := zAverage }
  else
    none

/-- Method `Sensor::setZero()`. -/
def setZero (s : Sensor) : Sensor :=
  { s with xZero := s.xAverage, yZero := s.yAverage, zZero := s.zAverage }

/-- A sequence of `Sensor::readPins(x, y, z)` calls, first call first. -/
def readPinsSeq (s : Sensor) : List (ℚ × ℚ × ℚ) → Option Sensor
  | [] => some s
  | (x, y, z) :: rest => (readPins s x y z).bind fun s1 => readPinsSeq s1 rest

end Sensor

/-! ## Accelerometer -/

/-- Data members of `class Accelerometer : public Sensor` (`Accelerometer.h`). -/
structure Accelerometer extends Sensor where
  xPin : Int
  yPin : Int
  zPin : Int
  refVolt : ℚ
  adcBits : ℚ
  zeroGVolt : ℚ
  sensitivity : ℚ

namespace Accelerometer

/-- Constructor `Accelerometer::Accelerometer(...)`: runs `Sensor()` on the storage `mem`,
then assigns the name, the pins and the conversion constants. -/
def ctor (mem : Sensor) (_name : String) (_xPin _yPin _zPin : Int)
    (_refVolt _adcBits _zeroGVolt _sensitivity : ℚ) : Accelerometer :=
  { toSensor := { Sensor.ctor mem with name := _name }
    xPin := _xPin
    yPin := _yPin
    zPin := _zPin
    refVolt := _refVolt
    adcBits := _adcBits
    zeroGVolt := _zeroGVolt
    sensitivity := _sensitivity }

/-- Method `Accelerometer::readPins()`.  `rx`, `ry`, `rz` are the `int` values that
`analogRead(xPin)`, `analogRead(yPin)`, `analogRead(zPin)` return during the call. -/
def readPins (a : Accelerometer) (rx ry rz : Int) : Option Accelerometer :=
  (Sensor.readPins a.toSensor (rx : ℚ) (ry : ℚ) (rz : ℚ)).map fun s =>
    { a with toSensor := s }

/-- Method `Accelerometer::calculate()`. -/
def calculate (a : Accelerometer) (rx ry rz : Int) : Option Accelerometer :=
  (a.readPins rx ry rz).map fun a1 =>
    let a2 := { a1 with
      xCalculated := (a1.xAverage * a1.refVolt / a1.adcBits - a1.zeroGVolt) / a1.sensitivity }
    let a3 := { a2 with
      yCalculated := (a2.yAverage * a2.refVolt / a2.adcBits - a2.zeroGVolt) / a2.sensitivity }
    { a3 with
      zCalculated := (a3.zAverage * a3.refVolt / a3.adcBits - a3.zeroGVolt) / a3.sensitivity }

/-- Method `setZero()` as inherited from `Sensor`. -/
def setZero (a : Accelerometer) : Accelerometer :=
  { a with toSensor := a.toSensor.setZero }

end Accelerometer

/-! ## Gyroscope -/

/-- The non-constant data members of `class Gyroscope : public Sensor`
(`Gyroscope.h`); the `const` members are the definitions below. -/
structure Gyroscope extends Sensor where
  itgAddress : Nat

/-- The I2C bus as seen by one read transaction: `bus address registerAddress` is
`some b` when a byte `b` is available after `Wire.requestFrom(address, 1)` and
`none` when `Wire.available()` is 0. -/
abbrev Bus := Nat → Nat → Option Nat

/-- Conversion of an `int` to `int16_t` (two's complement wrap-around). -/
def toInt16 (n : Int) : Int := (n + 32768) % 65536 - 32768

namespace Gyroscope

def WHO_AM_I : Nat := 0x00
def SMPLRT_DIV : Nat := 0x15
def DLPF_FS : Nat := 0x16
def DLPF_CFG_0 : Nat := 1 <<< 0
def DLPF_CFG_1 : Nat := 1 <<< 1
def DLPF_CFG_2 : Nat := 1 <<< 2
def DLPF_FS_SEL_0 : Nat := 1 <<< 3
def DLPF_FS_SEL_1 : Nat := 1 <<< 4
def GYRO_XOUT_H : Nat := 0x1D
def GYRO_XOUT_L : Nat := 0x1E
def GYRO_YOUT_H : Nat := 0x1F
def GYRO_YOUT_L : Nat := 0x20
def GYRO_ZOUT_H : Nat := 0x21
def GYRO_ZOUT_L : Nat := 0x22
def SCALE_FACTOR : ℚ := 14375 / 1000

/-- Constructor `Gyroscope::Gyroscope()`: runs `Sensor()` on the storage `mem`, sets
`itgAddress` to 0x69 and the name to "Gyro". -/
def ctor (mem : Sensor) : Gyroscope :=
  { toSensor := { Sensor.ctor mem with name := "Gyro" }
    itgAddress := 0x69 }

/-- Method `Gyroscope::itgRead`: `data` starts at 0 and is overwritten by the byte read
(converted to `unsigned char`) only when the bus has one available. -/
def itgRead (bus : Bus) (address registerAddress : Nat) : Nat :=
  let data : Nat := 0
  match bus address registerAddress with
  | some b => b % 256
  | none => data

/-- Method `Gyroscope::readRaw`: the high byte is promoted to `int`, shifted left by 8
and stored in the `int16_t data`; the low byte is then OR-ed in. -/
def readRaw (g : Gyroscope) (bus : Bus) (high low : Nat) : Int :=
  let data : Int := toInt16 ((itgRead bus g.itgAddress high <<< 8 : Nat) : Int)
  let data : Int := toInt16 (Int.lor data (itgRead bus g.itgAddress low : Int))
  data

/-- Method `Gyroscope::readPins()`. -/
def readPins (g : Gyroscope) (bus : Bus) : Option Gyroscope :=
  (Sensor.readPins g.toSensor
      (readRaw g bus GYRO_XOUT_H GYRO_XOUT_L : ℚ)
      (readRaw g bus GYRO_YOUT_H GYRO_YOUT_L : ℚ)
      (readRaw g bus GYRO_ZOUT_H GYRO_ZOUT_L : ℚ)).map fun s =>
    { g with toSensor := s }

/-- Method `Gyroscope::calculate()`. -/
def calculate (g : Gyroscope) (bus : Bus) : Option Gyroscope :=
  (g.readPins bus).map fun g1 =>
    let g2 := { g1 with xCalculated := (g1.xAverage - g1.xZero) / SCALE_FACTOR }
    let g3 := { g2 with yCalculated := (g2.yAverage - g2.yZero) / SCALE_FACTOR }
    { g3 with zCalculated := (g3.zAverage - g3.zZero) / SCALE_FACTOR }

/-- Method `setZero()` as inherited from `Sensor`. -/
def setZero (g : Gyroscope) : Gyroscope :=
  { g with toSensor := g.toSensor.setZero }

end Gyroscope

/-! ## Call sequences -/

/-- One call on an Accelerometer: the smoothing core's `readPins(x, y, z)`,
`setZero()`, or `calculate()` together with the three ADC readings it obtains. -/
inductive AccCall where
  | readPins (x y z : ℚ)
  | setZero
  | calculate (rx ry rz : Int)

/-- One call on a Gyroscope: the smoothing core's `readPins(x, y, z)`,
`setZero()`, or `calculate()` together with the bus it reads. -/
inductive GyroCall where
  | readPins (x y z : ℚ)
  | setZero
  | calculate (bus : Bus)

/-- Effect of one call on an Accelerometer. -/
def Accelerometer.step (a : Accelerometer) : AccCall → Option Accelerometer
  | .readPins x y z => (Sensor.readPins a.toSensor x y z).map fun s => { a with toSensor := s }
  | .setZero => some a.setZero
  | .calculate rx ry rz => a.calculate rx ry rz

/-- Effect of a sequence of calls on an Accelerometer, first call first. -/
def Accelerometer.run (a : Accelerometer) : List AccCall → Option Accelerometer
  | [] => some a
  | c :: rest => (a.step c).bind fun a1 => Accelerometer.run a1 rest

/-- Effect of one call on a Gyroscope. -/
def Gyroscope.step (g : Gyroscope) : GyroCall → Option Gyroscope
  | .readPins x y z => (Sensor.readPins g.toSensor x y z).map fun s => { g with toSensor := s }
  | .setZero => some g.setZero
  | .calculate bus => g.calculate bus

/-- Effect of a sequence of calls on a Gyroscope, first call first. -/
def Gyroscope.run (g : Gyroscope) : List GyroCall → Option Gyroscope
  | [] => some g
  | c :: rest => (g.step c).bind fun g1 => Gyroscope.run g1 rest

/-- The sum of the last `min n 8` elements of a list of `n` pushed values. -/
def lastSum (vs : List ℚ) : ℚ :=
  (vs.drop (vs.length - min vs.length 8)).sum

/-- The sum of the eight values stored in a readings array. -/
def sumReadings (r : Fin 8 → ℚ) : ℚ :=
  r 0 + r 1 + r 2 + r 3 + r 4 + r 5 + r 6 + r 7

/-- Storage whose three readings arrays alternate 511 and 512 and whose totals
are their sums, 4092: the smoothing state after eight ADC readings alternating
between 511 and 512. -/
def midscaleStorage : Sensor :=
  { Sensor.zeroStorage with
    xReadings := fun i => if i.val % 2 = 0 then 511 else 512
    xTotal := 4092
    xAverage := 4092 / 8
    yReadings := fun i => if i.val % 2 = 0 then 511 else 512
    yTotal := 4092
    yAverage := 4092 / 8
    zReadings := fun i => if i.val % 2 = 0 then 511 else 512
    zTotal := 4092
    zAverage := 4092 / 8 }

/-- Eight `calculate()` calls whose ADC readings alternate between 511 and 512
on every axis. -/
def midscaleCalls : List AccCall :=
  [AccCall.calculate 511 511 511, AccCall.calculate 512 512 512,
   AccCall.calculate 511 511 511, AccCall.calculate 512 512 512,
   AccCall.calculate 511 511 511, AccCall.calculate 512 512 512,
   AccCall.calculate 511 511 511, AccCall.calculate 512 512 512]

/-- Storage in which every reading is 1500, every total 12000 and every average
1500: the smoothing state of a stationary gyroscope whose raw output is 1500. -/
def calibratedStorage : Sensor :=
  { Sensor.zeroStorage with
    xReadings := fun _ => 1500
    xTotal := 12000
    xAverage := 1500
    yReadings := fun _ => 1500
    yTotal := 12000
    yAverage := 1500
    zReadings := fun _ => 1500
    zTotal := 12000
    zAverage := 1500 }

/-- A bus on which the X registers hold 0x06, 0x4F (raw 1615) and the Y and Z
registers hold 0x05, 0xDC (raw 1500). -/
def sampleBus : Bus := fun _ registerAddress =>
  if registerAddress = 0x1D then some 0x06
  else if registerAddress = 0x1E then some 0x4F
  else if registerAddress % 2 = 1 then some 0x05
  else some 0xDC

/-- Zeroed storage except for `xZero`, which holds 1. -/
def staleZeroStorage : Sensor :=
  { Sensor.zeroStorage with xZero := 1 }

/-! ## Auxiliary definitions for the proofs -/

/-- The array slot `valueIndex` designates. -/
def Sensor.slot (s : Sensor) : Fin 8 := ⟨s.valueIndex.toNat % 8, Nat.mod_lt _ (by norm_num)⟩

/-- The state `Sensor::readPins(x, y, z)` produces from an in-range state, in closed form. -/
def Sensor.pushed (s : Sensor) (x y z : ℚ) : Sensor :=
  { s with
    valueIndex := (s.valueIndex + 1) % 8
    xReadings := Function.update s.xReadings s.slot x
    xTotal := s.xTotal - s.xReadings s.slot + x
    xAverage := (s.xTotal - s.xReadings s.slot + x) / 8
    yReadings := Function.update s.yReadings s.slot y
    yTotal := s.yTotal - s.yReadings s.slot + y
    yAverage := (s.yTotal - s.yReadings s.slot + y) / 8
    zReadings := Function.update s.zReadings s.slot z
    zTotal := s.zTotal - s.zReadings s.slot + z
    zAverage := (s.zTotal - s.zReadings s.slot + z) / 8 }

/-- After `n` pushes whose values, newest first, are `rv`, slot `j` of the array
holds the newest value pushed into it, or 0 when none was. -/
def AxisWindow (n : ℕ) (rv : List ℚ) (r : Fin 8 → ℚ) : Prop :=
  ∀ j : Fin 8, r j = rv.getD ((n + 7 - j.val) % 8) 0

/-- The running-sum invariant of one axis. -/
def AxisInv (r : Fin 8 → ℚ) (total average : ℚ) : Prop :=
  total = sumReadings r ∧ average = total / 8

/-- The running-sum invariant of the three axes of a Sensor. -/
def Sensor.SumInv (s : Sensor) : Prop :=
  AxisInv s.xReadings s.xTotal s.xAverage ∧
  AxisInv s.yReadings s.yTotal s.yAverage ∧
  AxisInv s.zReadings s.zTotal s.zAverage

/-- The index is a valid subscript of the readings arrays. -/
def Sensor.InRange (s : Sensor) : Prop := 0 ≤ s.valueIndex ∧ s.valueIndex < 8

instance (n : ℕ) (rv : List ℚ) (r : Fin 8 → ℚ) : Decidable (AxisWindow n rv r) :=
  inferInstanceAs (Decidable (∀ j : Fin 8, r j = rv.getD ((n + 7 - j.val) % 8) 0))

instance (r : Fin 8 → ℚ) (total average : ℚ) : Decidable (AxisInv r total average) :=
  inferInstanceAs (Decidable (total = sumReadings r ∧ average = total / 8))

instance (s : Sensor) : Decidable s.SumInv :=
  inferInstanceAs (Decidable (AxisInv s.xReadings s.xTotal s.xAverage ∧
    AxisInv s.yReadings s.yTotal s.yAverage ∧ AxisInv s.zReadings s.zTotal s.zAverage))

instance (s : Sensor) : Decidable s.InRange :=
  inferInstanceAs (Decidable (0 ≤ s.valueIndex ∧ s.valueIndex < 8))

/-! ## Bus writes -/

/-- One call made on the `Wire` object while writing to the bus. -/
inductive WireCall where
  | begin
  | beginTransmission (address : Nat)
  | write (data : Nat)
  | endTransmission
  deriving DecidableEq

/-- Method `Gyroscope::itgWrite`: the four `Wire` calls it makes, appended to the
calls `wire` made so far. -/
def Gyroscope.itgWrite (wire : List WireCall) (address registerAddress data : Nat) :
    List WireCall :=
  wire ++ [WireCall.beginTransmission address, WireCall.write registerAddress,
    WireCall.write data, WireCall.endTransmission]

/-- Method `Gyroscope::setupGyro`: `Wire.begin()` and the two `itgWrite` calls,
appended to the calls `wire` made so far. -/
def Gyroscope.setupGyro (g : Gyroscope) (wire : List WireCall) : List WireCall :=
  let wire := wire ++ [WireCall.begin]
  let wire := Gyroscope.itgWrite wire g.itgAddress Gyroscope.DLPF_FS
    (Gyroscope.DLPF_FS_SEL_0 ||| Gyroscope.DLPF_FS_SEL_1 ||| Gyroscope.DLPF_CFG_0)
  Gyroscope.itgWrite wire g.itgAddress Gyroscope.SMPLRT_DIV 9

/-! ## One axis of the smoothing core, for the proofs -/

/-- The three members of one axis: readings array, total and average. -/
structure Axis where
  readings : Fin 8 → ℚ
  total : ℚ
  average : ℚ

/-- What `Sensor::readPins` does to one axis when the index designates slot `i`. -/
def Axis.push (A : Axis) (i : Fin 8) (v : ℚ) : Axis :=
  { readings := Function.update A.readings i v
    total := A.total - A.readings i + v
    average := (A.total - A.readings i + v) / 8 }

/-- Successive pushes on one axis, the slot advancing modulo 8. -/
def Axis.pushSeq (A : Axis) (i : Fin 8) : List ℚ → Axis
  | [] => A
  | v :: vs => Axis.pushSeq (A.push i v) (i + 1) vs

/-- The X axis of a Sensor. -/
def Sensor.xAxis (s : Sensor) : Axis := ⟨s.xReadings, s.xTotal, s.xAverage⟩

/-- The Y axis of a Sensor. -/
def Sensor.yAxis (s : Sensor) : Axis := ⟨s.yReadings, s.yTotal, s.yAverage⟩

/-- The Z axis of a Sensor. -/
def Sensor.zAxis (s : Sensor) : Axis := ⟨s.zReadings, s.zTotal, s.zAverage⟩

/-- Zeroed storage except for `xTotal`, which holds 8 although the X readings
sum to 0. -/
def driftStorage : Sensor :=
  { Sensor.zeroStorage with xTotal := 8 }

/-! ## The smoothing core in double arithmetic -/

namespace Binary64

/-- An IEEE-754 binary64 value (`double`).  A finite value is an integer number
of units of `2^-1074`, the smallest positive subnormal; the sign of zero is not
represented. -/
inductive Double where
  | finite (units : Int)
  | inf (negative : Bool)
  | nan
  deriving DecidableEq

namespace Double

/-- The number of bits by which `q` exceeds 53 bits, for `fuel ≥ q`: the least
`s` with `q / 2^s < 2^53`. -/
def excessBits (q : Nat) : Nat → Nat
  | 0 => 0
  | fuel + 1 => if q < 2 ^ 53 then 0 else excessBits (q / 2) fuel + 1

/-- Rounding to nearest, ties to even, of the magnitude `n / d` units (`d > 0`) to
a 53-bit significand; below `2^53` units the spacing of doubles is one unit. -/
def roundNat (n d : Nat) : Nat :=
  let q0 := n / d
  let s := excessBits q0 q0
  let spacing := d * 2 ^ s
  let q := n / spacing
  let r := n % spacing
  let q := if 2 * r > spacing ∨ (2 * r = spacing ∧ q % 2 = 1) then q + 1 else q
  q * 2 ^ s

/-- The double nearest to the exact value `± n / d` units; magnitudes that round
to `2^1024` (that is `2^2098` units) or more overflow to infinity. -/
def round (negative : Bool) (n d : Nat) : Double :=
  let m := roundNat n d
  if m ≥ 2 ^ 2098 then inf negative
  else finite (if negative then -(m : Int) else (m : Int))

/-- The double nearest to the fraction `n / d`, for `d > 0`. -/
def ofRatio (n : Int) (d : Nat) : Double :=
  round (decide (n < 0)) (n.natAbs * 2 ^ 1074) d

/-- Conversion of an `int` to `double`. -/
def ofInt (n : Int) : Double := ofRatio n 1

/-- Negation. -/
def neg : Double → Double
  | finite a => finite (-a)
  | inf s => inf (!s)
  | nan => nan

/-- Addition: the exact sum, rounded. -/
def add : Double → Double → Double
  | finite a, finite b => round (decide (a + b < 0)) (a + b).natAbs 1
  | finite _, inf s => inf s
  | inf s, finite _ => inf s
  | inf s, inf t => if s = t then inf s else nan
  | _, _ => nan

/-- Subtraction. -/
def sub (x y : Double) : Double := add x (neg y)

/-- Division: the exact quotient, rounded; a zero divisor counts as `+0`. -/
def div : Double → Double → Double
  | finite a, finite b =>
    if b = 0 then (if a = 0 then nan else inf (decide (a < 0)))
    else round (decide ((a < 0) ≠ (b < 0))) (a.natAbs * 2 ^ 1074) b.natAbs
  | finite _, inf _ => finite 0
  | inf s, finite b => inf (s != decide (b < 0))
  | _, _ => nan

/-- Comparison `x <= y` of doubles; false when either is a NaN. -/
def le : Double → Double → Bool
  | finite a, finite b => decide (a ≤ b)
  | finite _, inf s => !s
  | inf s, finite _ => s
  | inf s, inf t => s || !t
  | _, _ => false

instance : Add Double := ⟨add⟩
instance : Sub Double := ⟨sub⟩
instance : Div Double := ⟨div⟩

end Double

/-- Data members of `class Sensor` (`Sensor.h`) with `double` members as binary64
values. -/
structure Sensor where
  valueIndex : Int
  xReadings : Fin 8 → Double
  xTotal : Double
  xAverage : Double
  xZero : Double
  yReadings : Fin 8 → Double
  yTotal : Double
  yAverage : Double
  yZero : Double
  zReadings : Fin 8 → Double
  zTotal : Double
  zAverage : Double
  zZero : Double
  name : String
  xCalculated : Double
  yCalculated : Double
  zCalculated : Double

namespace Sensor

/-- The member `const int NUM_READINGS`, which the only constructor sets to 8. -/
def NUM_READINGS : Int := 8

/-- Constructor `Sensor::Sensor()`: assigns `valueIndex` only. -/
def ctor (mem : Sensor) : Sensor :=
  { mem with valueIndex := 0 }

/-- Storage in which every member is zero. -/
def zeroStorage : Sensor where
  valueIndex := 0
  xReadings := fun _ => Double.finite 0
  xTotal := Double.finite 0
  xAverage := Double.finite 0
  xZero := Double.finite 0
  yReadings := fun _ => Double.finite 0
  yTotal := Double.finite 0
  yAverage := Double.finite 0
  yZero := Double.finite 0
  zReadings := fun _ => Double.finite 0
  zTotal := Double.finite 0
  zAverage := Double.finite 0
  zZero := Double.finite 0
  name := ""
  xCalculated := Double.finite 0
  yCalculated := Double.finite 0
  zCalculated := Double.finite 0

/-- A Sensor constructed in zeroed storage. -/
def fresh : Sensor := ctor zeroStorage

/-- Method `Sensor::readPins(double, double, double)`, statement by statement, in
double arithmetic; `NUM_READINGS` is converted to `double` for the division. -/
def readPins (s : Sensor) (readX readY readZ : Double) : Option Sensor :=
  if h : 0 ≤ s.valueIndex ∧ s.valueIndex < 8 then
    let i : Fin 8 := ⟨s.valueIndex.toNat, by omega⟩
    let xTotal := s.xTotal - s.xReadings i
    let yTotal := s.yTotal - s.yReadings i
    let zTotal := s.zTotal - s.zReadings i
    let xReadings := Function.update s.xReadings i readX
    let yReadings := Function.update s.yReadings i readY
    let zReadings := Function.update s.zReadings i readZ
    let xTotal := xTotal + xReadings i
    let yTotal := yTotal + yReadings i
    let zTotal := zTotal + zReadings i
    let xAverage := xTotal / Double.ofInt NUM_READINGS
    let yAverage := yTotal / Double.ofInt NUM_READINGS
    let zAverage := zTotal / Double.ofInt NUM_READINGS
    let valueIndex := s.valueIndex + 1
    let valueIndex := if valueIndex ≥ NUM_READINGS then 0 else valueIndex
    some { s with
      valueIndex := valueIndex
      xReadings := xReadings, xTotal := xTotal, xAverage := xAverage
      yReadings := yReadings, yTotal := yTotal, yAverage := yAverage
      zReadings := zReadings, zTotal := zTotal, zAverage := zAverage }
  else
    none

/-- A sequence of `Sensor::readPins(x, y, z)` calls, first call first. -/
def readPinsSeq (s : Sensor) : List (Double × Double × Double) → Option Sensor
  | [] => some s
  | (x, y, z) :: rest => (readPins s x y z).bind fun s1 => readPinsSeq s1 rest

end Sensor

/-- The exact sum, in units of `2^-1074`, of the eight stored readings, when all
are finite. -/
def sumUnits (r : Fin 8 → Double) : Option Int :=
  match r 0, r 1, r 2, r 3, r 4, r 5, r 6, r 7 with
  | .finite a0, .finite a1, .finite a2, .finite a3, .finite a4, .finite a5, .finite a6,
    .finite a7 => some (a0 + a1 + a2 + a3 + a4 + a5 + a6 + a7)
  | _, _, _, _, _, _, _, _ => none

/-- The exact difference `total - (sum of the eight stored readings)`, in units of
`2^-1074`, when all nine values are finite. -/
def errorUnits (total : Double) (r : Fin 8 → Double) : Option Int :=
  match total, sumUnits r with
  | .finite t, some sum => some (t - sum)
  | _, _ => none

/-- Zeroed storage except for `xTotal`, which holds `2^53` over all-zero X
readings. -/
def staleTotalStorage : Sensor :=
  { Sensor.zeroStorage with xTotal := Double.ofInt (2 ^ 53) }

end Binary64


/-! ## Lemmas on the smoothing core -/

theorem Sensor.readPins_eq_pushed (s : Sensor) (x y z : ℚ) (h : s.InRange) :
    s.readPins x y z = some (s.pushed x y z) := by
  obtain ⟨h0, h8⟩ := h
  have hslot : (⟨s.valueIndex.toNat, by omega⟩ : Fin 8) = s.slot := by
    apply Fin.ext
    simp only [Sensor.slot]
    omega
  have hidx : (if s.valueIndex + 1 ≥ Sensor.NUM_READINGS then (0 : Int) else s.valueIndex + 1)
      = (s.valueIndex + 1) % 8 := by
    simp only [Sensor.NUM_READINGS]
    split_ifs <;> omega
  simp only [Sensor.readPins, h0, h8, and_self, dif_pos, hslot, hidx, Sensor.pushed,
    Function.update_same]
  simp [Sensor.NUM_READINGS]

theorem Sensor.pushed_inRange (s : Sensor) (x y z : ℚ) : (s.pushed x y z).InRange := by
  simp only [Sensor.InRange, Sensor.pushed]
  omega

theorem sumReadings_update (r : Fin 8 → ℚ) (i : Fin 8) (v : ℚ) :
    sumReadings (Function.update r i v) = sumReadings r - r i + v := by
  fin_cases i <;> simp [sumReadings, Function.update] <;> ring

theorem axisInv_push {r : Fin 8 → ℚ} {t a : ℚ} (h : AxisInv r t a) (i : Fin 8) (v : ℚ) :
    AxisInv (Function.update r i v) (t - r i + v) ((t - r i + v) / 8) := by
  refine ⟨?_, rfl⟩
  rw [sumReadings_update, h.1]

theorem sumInv_pushed {s : Sensor} (h : s.SumInv) (x y z : ℚ) :
    (s.pushed x y z).SumInv :=
  ⟨axisInv_push h.1 _ _, axisInv_push h.2.1 _ _, axisInv_push h.2.2 _ _⟩

theorem take_eight_sum (rv : List ℚ) :
    (rv.take 8).sum = rv.getD 0 0 + rv.getD 1 0 + rv.getD 2 0 + rv.getD 3 0
      + rv.getD 4 0 + rv.getD 5 0 + rv.getD 6 0 + rv.getD 7 0 := by
  rcases rv with _ | ⟨a0, _ | ⟨a1, _ | ⟨a2, _ | ⟨a3, _ | ⟨a4, _ | ⟨a5, _ | ⟨a6, _ | ⟨a7, t⟩⟩⟩⟩⟩⟩⟩⟩ <;>
    simp <;> try ring

theorem axisWindow_sum {n : ℕ} {rv : List ℚ} {r : Fin 8 → ℚ} (h : AxisWindow n rv r) :
    sumReadings r = (rv.take 8).sum := by
  have key : ∀ j : Fin 8, r j = rv.getD ((n % 8 + 7 - j.val) % 8) 0 := by
    intro j
    rw [h j]
    congr 1
    omega
  have hk : n % 8 < 8 := Nat.mod_lt _ (by norm_num)
  rw [take_eight_sum]
  simp only [sumReadings, key]
  generalize n % 8 = k at hk
  have v3 : ((3 : Fin 8) : ℕ) = 3 := rfl
  have v4 : ((4 : Fin 8) : ℕ) = 4 := rfl
  have v5 : ((5 : Fin 8) : ℕ) = 5 := rfl
  have v6 : ((6 : Fin 8) : ℕ) = 6 := rfl
  have v7 : ((7 : Fin 8) : ℕ) = 7 := rfl
  interval_cases k <;> simp [v3, v4, v5, v6, v7] <;> ring

theorem axisWindow_zero : AxisWindow 0 [] (fun _ => 0) := by
  intro j
  simp

theorem axisWindow_push {n : ℕ} {rv : List ℚ} {r : Fin 8 → ℚ} (h : AxisWindow n rv r)
    (i : Fin 8) (hi : i.val = n % 8) (v : ℚ) :
    AxisWindow (n + 1) (v :: rv) (Function.update r i v) := by
  intro j
  by_cases hj : j = i
  · subst hj
    have : (n + 1 + 7 - j.val) % 8 = 0 := by omega
    simp [this]
  · have hne : j.val ≠ i.val := fun e => hj (Fin.ext e)
    have : (n + 1 + 7 - j.val) % 8 = (n + 7 - j.val) % 8 + 1 := by
      have := j.isLt
      omega
    rw [Function.update_noteq hj, this, h j]
    simp

theorem lastSum_eq (vs : List ℚ) : lastSum vs = (vs.reverse.take 8).sum := by
  unfold lastSum
  have : vs.length - min vs.length 8 = vs.length - 8 := by omega
  rw [this, List.take_reverse, List.sum_reverse]

theorem lastSum_replicate (n : ℕ) (v : ℚ) :
    lastSum (List.replicate n v) = (min n 8 : ℕ) * v := by
  unfold lastSum
  simp only [List.length_replicate, List.drop_replicate, List.sum_replicate, nsmul_eq_mul]
  congr 2
  omega

theorem Sensor.readPinsSeq_append (s : Sensor) (l : List (ℚ × ℚ × ℚ)) (p : ℚ × ℚ × ℚ) :
    s.readPinsSeq (l ++ [p]) = (s.readPinsSeq l).bind fun s1 => s1.readPins p.1 p.2.1 p.2.2 := by
  induction l generalizing s with
  | nil =>
    obtain ⟨x, y, z⟩ := p
    cases h : s.readPins x y z <;> simp [Sensor.readPinsSeq, h]
  | cons q rest ih =>
    obtain ⟨x, y, z⟩ := q
    cases h : s.readPins x y z with
    | none => simp [Sensor.readPinsSeq, h]
    | some s1 => simpa [Sensor.readPinsSeq, h] using ih s1

theorem Sensor.fresh_sumInv : Sensor.fresh.SumInv := by
  simp [Sensor.SumInv, AxisInv, Sensor.fresh, Sensor.ctor, Sensor.zeroStorage, sumReadings]

/-- What a fresh Sensor looks like after any sequence of pushes. -/
theorem Sensor.fresh_run (l : List (ℚ × ℚ × ℚ)) :
    ∃ s, Sensor.fresh.readPinsSeq l = some s ∧
      s.valueIndex = ((l.length % 8 : ℕ) : ℤ) ∧
      AxisWindow l.length (l.map fun p => p.1).reverse s.xReadings ∧
      AxisWindow l.length (l.map fun p => p.2.1).reverse s.yReadings ∧
      AxisWindow l.length (l.map fun p => p.2.2).reverse s.zReadings ∧
      s.SumInv := by
  induction l using List.reverseRecOn with
  | nil =>
    exact ⟨Sensor.fresh, rfl, rfl, axisWindow_zero, axisWindow_zero, axisWindow_zero,
      Sensor.fresh_sumInv⟩
  | append_singleton l p ih =>
    obtain ⟨s, hrun, hidx, hx, hy, hz, hsum⟩ := ih
    have hr : s.InRange := by
      simp only [Sensor.InRange, hidx]
      omega
    have hslot : s.slot.val = l.length % 8 := by
      simp only [Sensor.slot, hidx]
      omega
    refine ⟨s.pushed p.1 p.2.1 p.2.2, ?_, ?_, ?_, ?_, ?_, sumInv_pushed hsum _ _ _⟩
    · rw [Sensor.readPinsSeq_append, hrun, Option.some_bind, Sensor.readPins_eq_pushed _ _ _ _ hr]
    · simp only [Sensor.pushed, hidx, List.length_append, List.length_singleton]
      omega
    · simpa using axisWindow_push hx s.slot hslot p.1
    · simpa using axisWindow_push hy s.slot hslot p.2.1
    · simpa using axisWindow_push hz s.slot hslot p.2.2

/-- The averages of a fresh Sensor after any sequence of pushes. -/
theorem Sensor.fresh_run_average (l : List (ℚ × ℚ × ℚ)) :
    ∃ s, Sensor.fresh.readPinsSeq l = some s ∧
      s.xAverage = lastSum (l.map fun p => p.1) / 8 ∧
      s.yAverage = lastSum (l.map fun p => p.2.1) / 8 ∧
      s.zAverage = lastSum (l.map fun p => p.2.2) / 8 := by
  obtain ⟨s, hrun, -, hx, hy, hz, hsx, hsy, hsz⟩ := Sensor.fresh_run l
  refine ⟨s, hrun, ?_, ?_, ?_⟩
  · rw [hsx.2, hsx.1, axisWindow_sum hx, lastSum_eq]
  · rw [hsy.2, hsy.1, axisWindow_sum hy, lastSum_eq]
  · rw [hsz.2, hsz.1, axisWindow_sum hz, lastSum_eq]

theorem map_eq_replicate_of_forall {v : ℚ} {l : List (ℚ × ℚ × ℚ)} (f : ℚ × ℚ × ℚ → ℚ)
    (h : ∀ p ∈ l, f p = v) : l.map f = List.replicate l.length v := by
  induction l with
  | nil => rfl
  | cons q rest ih =>
    have hq : f q = v := h q (List.mem_cons_self _ _)
    have hrest : ∀ p ∈ rest, f p = v := fun p hp => h p (List.mem_cons_of_mem _ hp)
    simp [List.replicate_succ, hq, ih hrest]

theorem ramp_value (v : ℚ) (n : ℕ) :
    ((min n 8 : ℕ) : ℚ) * v / 8 = if n < 8 then v * (n : ℚ) / 8 else v := by
  split_ifs with h
  · rw [min_eq_left (by omega)]
    ring
  · rw [min_eq_right (by omega)]
    norm_num

/-! ## Claims -/

/-- C1. Moving-average correctness: from a fresh Sensor (all members zero,
`valueIndex` 0), any sequence of `n ≥ 1` calls `readPins(x_k, y_k, z_k)` succeeds
and leaves on each axis an average equal to the sum of the last `min n 8` values
pushed on that axis, divided by 8. -/
theorem moving_average_correct (l : List (ℚ × ℚ × ℚ)) (hn : 1 ≤ l.length) :
    ∃ s, Sensor.fresh.readPinsSeq l = some s ∧
      s.xAverage = lastSum (l.map fun p => p.1) / 8 ∧
      s.yAverage = lastSum (l.map fun p => p.2.1) / 8 ∧
      s.zAverage = lastSum (l.map fun p => p.2.2) / 8 := by
  have _ := hn
  exact Sensor.fresh_run_average l

/-- C1 at two pushes `(8, 16, 24)` and `(8, 0, 0)`: the averages are 2, 2 and 3. -/
theorem moving_average_correct_witness :
    ∃ s, Sensor.fresh.readPinsSeq [(8, 16, 24), (8, 0, 0)] = some s ∧
      s.xAverage = 2 ∧ s.yAverage = 2 ∧ s.zAverage = 3 := by
  obtain ⟨s, hs, hx, hy, hz⟩ := moving_average_correct [(8, 16, 24), (8, 0, 0)] (by decide)
  refine ⟨s, hs, ?_, ?_, ?_⟩
  · rw [hx]; norm_num [lastSum]
  · rw [hy]; norm_num [lastSum]
  · rw [hz]; norm_num [lastSum]

/-- C2. Warm-up ramp: from a fresh Sensor, after `n ≥ 1` calls of `readPins` that
all push the same value `v` on an axis, that axis's average is `v * n / 8` when
`n < 8` and exactly `v` when `n ≥ 8`. -/
theorem warm_up_ramp (v : ℚ) (l : List (ℚ × ℚ × ℚ)) (hn : 1 ≤ l.length) :
    ∃ s, Sensor.fresh.readPinsSeq l = some s ∧
      ((∀ p ∈ l, p.1 = v) →
        s.xAverage = if l.length < 8 then v * (l.length : ℚ) / 8 else v) ∧
      ((∀ p ∈ l, p.2.1 = v) →
        s.yAverage = if l.length < 8 then v * (l.length : ℚ) / 8 else v) ∧
      ((∀ p ∈ l, p.2.2 = v) →
        s.zAverage = if l.length < 8 then v * (l.length : ℚ) / 8 else v) := by
  have _ := hn
  obtain ⟨s, hrun, hx, hy, hz⟩ := Sensor.fresh_run_average l
  refine ⟨s, hrun, fun h => ?_, fun h => ?_, fun h => ?_⟩
  · rw [hx, map_eq_replicate_of_forall _ h, lastSum_replicate]
    exact ramp_value v l.length
  · rw [hy, map_eq_replicate_of_forall _ h, lastSum_replicate]
    exact ramp_value v l.length
  · rw [hz, map_eq_replicate_of_forall _ h, lastSum_replicate]
    exact ramp_value v l.length

/-- C2 at three pushes of 16 on the X axis and at nine pushes of 5 on every axis. -/
theorem warm_up_ramp_witness :
    (∃ s, Sensor.fresh.readPinsSeq [(16, 1, 2), (16, 3, 4), (16, 5, 6)] = some s ∧
      s.xAverage = 6) ∧
    (∃ s, Sensor.fresh.readPinsSeq (List.replicate 9 (5, 5, 5)) = some s ∧
      s.xAverage = 5 ∧ s.yAverage = 5 ∧ s.zAverage = 5) := by
  constructor
  · obtain ⟨s, hs, hx, -, -⟩ := warm_up_ramp 16 [(16, 1, 2), (16, 3, 4), (16, 5, 6)] (by decide)
    refine ⟨s, hs, ?_⟩
    rw [hx (by simp)]
    norm_num
  · obtain ⟨s, hs, hx, hy, hz⟩ := warm_up_ramp 5 (List.replicate 9 (5, 5, 5)) (by decide)
    refine ⟨s, hs, ?_, ?_, ?_⟩
    · rw [hx (by simp)]; norm_num
    · rw [hy (by simp)]; norm_num
    · rw [hz (by simp)]; norm_num

/-! ### Reachable states of the two drivers -/

theorem accelerometer_calculate_eq (a : Accelerometer) (rx ry rz : Int)
    (h : a.toSensor.InRange) :
    ∃ a1, a.calculate rx ry rz = some a1 ∧
      a1.valueIndex = (a.toSensor.pushed rx ry rz).valueIndex ∧
      a1.xReadings = (a.toSensor.pushed rx ry rz).xReadings ∧
      a1.xTotal = (a.toSensor.pushed rx ry rz).xTotal ∧
      a1.xAverage = (a.toSensor.pushed rx ry rz).xAverage ∧
      a1.yReadings = (a.toSensor.pushed rx ry rz).yReadings ∧
      a1.yTotal = (a.toSensor.pushed rx ry rz).yTotal ∧
      a1.yAverage = (a.toSensor.pushed rx ry rz).yAverage ∧
      a1.zReadings = (a.toSensor.pushed rx ry rz).zReadings ∧
      a1.zTotal = (a.toSensor.pushed rx ry rz).zTotal ∧
      a1.zAverage = (a.toSensor.pushed rx ry rz).zAverage := by
  simp [Accelerometer.calculate, Accelerometer.readPins, Sensor.readPins_eq_pushed _ _ _ _ h]

theorem gyroscope_calculate_eq (g : Gyroscope) (bus : Bus) (h : g.toSensor.InRange) :
    ∃ x y z : ℚ,
      x = (g.readRaw bus Gyroscope.GYRO_XOUT_H Gyroscope.GYRO_XOUT_L : ℚ) ∧
      y = (g.readRaw bus Gyroscope.GYRO_YOUT_H Gyroscope.GYRO_YOUT_L : ℚ) ∧
      z = (g.readRaw bus Gyroscope.GYRO_ZOUT_H Gyroscope.GYRO_ZOUT_L : ℚ) ∧
      ∃ g1, g.calculate bus = some g1 ∧
        g1.valueIndex = (g.toSensor.pushed x y z).valueIndex ∧
        g1.xReadings = (g.toSensor.pushed x y z).xReadings ∧
        g1.xTotal = (g.toSensor.pushed x y z).xTotal ∧
        g1.xAverage = (g.toSensor.pushed x y z).xAverage ∧
        g1.yReadings = (g.toSensor.pushed x y z).yReadings ∧
        g1.yTotal = (g.toSensor.pushed x y z).yTotal ∧
        g1.yAverage = (g.toSensor.pushed x y z).yAverage ∧
        g1.zReadings = (g.toSensor.pushed x y z).zReadings ∧
        g1.zTotal = (g.toSensor.pushed x y z).zTotal ∧
        g1.zAverage = (g.toSensor.pushed x y z).zAverage := by
  refine ⟨_, _, _, rfl, rfl, rfl, ?_⟩
  simp [Gyroscope.calculate, Gyroscope.readPins, Sensor.readPins_eq_pushed _ _ _ _ h]

theorem accelerometer_step_inv (a : Accelerometer) (c : AccCall)
    (h : a.toSensor.InRange ∧ a.toSensor.SumInv) :
    ∃ a1, a.step c = some a1 ∧ a1.toSensor.InRange ∧ a1.toSensor.SumInv := by
  cases c with
  | readPins x y z =>
    refine ⟨{ a with toSensor := a.toSensor.pushed x y z }, ?_, ?_, ?_⟩
    · simp [Accelerometer.step, Sensor.readPins_eq_pushed _ _ _ _ h.1]
    · exact Sensor.pushed_inRange _ _ _ _
    · exact sumInv_pushed h.2 _ _ _
  | setZero => exact ⟨a.setZero, rfl, h.1, h.2⟩
  | calculate rx ry rz =>
    obtain ⟨a1, h1, hi, hxr, hxt, hxa, hyr, hyt, hya, hzr, hzt, hza⟩ :=
      accelerometer_calculate_eq a rx ry rz h.1
    have hp := Sensor.pushed_inRange a.toSensor rx ry rz
    have hs := sumInv_pushed h.2 (rx : ℚ) (ry : ℚ) (rz : ℚ)
    refine ⟨a1, h1, ?_, ?_⟩
    · simpa only [Sensor.InRange, hi] using hp
    · simpa only [Sensor.SumInv, hxr, hxt, hxa, hyr, hyt, hya, hzr, hzt, hza] using hs

theorem gyroscope_step_inv (g : Gyroscope) (c : GyroCall)
    (h : g.toSensor.InRange ∧ g.toSensor.SumInv) :
    ∃ g1, g.step c = some g1 ∧ g1.toSensor.InRange ∧ g1.toSensor.SumInv := by
  cases c with
  | readPins x y z =>
    refine ⟨{ g with toSensor := g.toSensor.pushed x y z }, ?_, ?_, ?_⟩
    · simp [Gyroscope.step, Sensor.readPins_eq_pushed _ _ _ _ h.1]
    · exact Sensor.pushed_inRange _ _ _ _
    · exact sumInv_pushed h.2 _ _ _
  | setZero => exact ⟨g.setZero, rfl, h.1, h.2⟩
  | calculate bus =>
    obtain ⟨x, y, z, -, -, -, g1, h1, hi, hxr, hxt, hxa, hyr, hyt, hya, hzr, hzt, hza⟩ :=
      gyroscope_calculate_eq g bus h.1
    have hp := Sensor.pushed_inRange g.toSensor x y z
    have hs := sumInv_pushed h.2 x y z
    refine ⟨g1, h1, ?_, ?_⟩
    · simpa only [Sensor.InRange, hi] using hp
    · simpa only [Sensor.SumInv, hxr, hxt, hxa, hyr, hyt, hya, hzr, hzt, hza] using hs

theorem accelerometer_run_inv (calls : List AccCall) (a : Accelerometer)
    (h : a.toSensor.InRange ∧ a.toSensor.SumInv) :
    ∃ a1, a.run calls = some a1 ∧ a1.toSensor.InRange ∧ a1.toSensor.SumInv := by
  induction calls generalizing a with
  | nil => exact ⟨a, rfl, h⟩
  | cons c rest ih =>
    obtain ⟨a1, h1, hinv⟩ := accelerometer_step_inv a c h
    obtain ⟨a2, h2, hinv2⟩ := ih a1 hinv
    exact ⟨a2, by simp [Accelerometer.run, h1, h2], hinv2⟩

theorem gyroscope_run_inv (calls : List GyroCall) (g : Gyroscope)
    (h : g.toSensor.InRange ∧ g.toSensor.SumInv) :
    ∃ g1, g.run calls = some g1 ∧ g1.toSensor.InRange ∧ g1.toSensor.SumInv := by
  induction calls generalizing g with
  | nil => exact ⟨g, rfl, h⟩
  | cons c rest ih =>
    obtain ⟨g1, h1, hinv⟩ := gyroscope_step_inv g c h
    obtain ⟨g2, h2, hinv2⟩ := ih g1 hinv
    exact ⟨g2, by simp [Gyroscope.run, h1, h2], hinv2⟩

theorem Sensor.fresh_inRange : Sensor.fresh.InRange := by
  simp [Sensor.InRange, Sensor.fresh, Sensor.ctor]

/-- C3. Running-sum invariant: every sequence of `readPins(x, y, z)`, `setZero`
and `calculate` calls on an Accelerometer or a Gyroscope constructed in zeroed
storage succeeds, and in the state it reaches each axis total is the sum of the
eight stored readings of the axis and each axis average is that total divided
by 8. -/
theorem running_sum_invariant :
    (∀ (name : String) (xPin yPin zPin : Int) (refVolt adcBits zeroGVolt sensitivity : ℚ)
        (calls : List AccCall),
      ∃ a, (Accelerometer.ctor Sensor.zeroStorage name xPin yPin zPin refVolt adcBits
          zeroGVolt sensitivity).run calls = some a ∧
        a.xTotal = sumReadings a.xReadings ∧ a.xAverage = a.xTotal / 8 ∧
        a.yTotal = sumReadings a.yReadings ∧ a.yAverage = a.yTotal / 8 ∧
        a.zTotal = sumReadings a.zReadings ∧ a.zAverage = a.zTotal / 8) ∧
    (∀ calls : List GyroCall,
      ∃ g, (Gyroscope.ctor Sensor.zeroStorage).run calls = some g ∧
        g.xTotal = sumReadings g.xReadings ∧ g.xAverage = g.xTotal / 8 ∧
        g.yTotal = sumReadings g.yReadings ∧ g.yAverage = g.yTotal / 8 ∧
        g.zTotal = sumReadings g.zReadings ∧ g.zAverage = g.zTotal / 8) := by
  constructor
  · intro name xPin yPin zPin refVolt adcBits zeroGVolt sensitivity calls
    obtain ⟨a, ha, -, ⟨hx1, hx2⟩, ⟨hy1, hy2⟩, ⟨hz1, hz2⟩⟩ :=
      accelerometer_run_inv calls
        (Accelerometer.ctor Sensor.zeroStorage name xPin yPin zPin refVolt adcBits
          zeroGVolt sensitivity)
        ⟨Sensor.fresh_inRange, Sensor.fresh_sumInv⟩
    exact ⟨a, ha, hx1, hx2, hy1, hy2, hz1, hz2⟩
  · intro calls
    obtain ⟨g, hg, -, ⟨hx1, hx2⟩, ⟨hy1, hy2⟩, ⟨hz1, hz2⟩⟩ :=
      gyroscope_run_inv calls (Gyroscope.ctor Sensor.zeroStorage)
        ⟨Sensor.fresh_inRange, Sensor.fresh_sumInv⟩
    exact ⟨g, hg, hx1, hx2, hy1, hy2, hz1, hz2⟩

/-- C4. Accelerometer conversion: from every Accelerometer state whose
`valueIndex` is a valid subscript, with non-zero `sensitivity` and `adcBits`,
`calculate` with ADC readings `(rx, ry, rz)` pushes exactly these through
`Sensor::readPins` and then sets each `calculated` to
`(average * refVolt / adcBits - zeroGVolt) / sensitivity` with the average after
the push; nothing else changes, and the formula inverts to
`(calculated * sensitivity + zeroGVolt) * adcBits = average * refVolt`. -/
theorem accelerometer_conversion (a : Accelerometer) (rx ry rz : Int)
    (hidx : 0 ≤ a.valueIndex ∧ a.valueIndex < 8)
    (hs : a.sensitivity ≠ 0) (hb : a.adcBits ≠ 0) :
    ∃ s a1, Sensor.readPins a.toSensor (rx : ℚ) (ry : ℚ) (rz : ℚ) = some s ∧
      a.calculate rx ry rz = some a1 ∧
      a1 = { a with toSensor := { s with
        xCalculated := (s.xAverage * a.refVolt / a.adcBits - a.zeroGVolt) / a.sensitivity
        yCalculated := (s.yAverage * a.refVolt / a.adcBits - a.zeroGVolt) / a.sensitivity
        zCalculated := (s.zAverage * a.refVolt / a.adcBits - a.zeroGVolt) / a.sensitivity } } ∧
      (a1.xCalculated * a.sensitivity + a.zeroGVolt) * a.adcBits = a1.xAverage * a.refVolt ∧
      (a1.yCalculated * a.sensitivity + a.zeroGVolt) * a.adcBits = a1.yAverage * a.refVolt ∧
      (a1.zCalculated * a.sensitivity + a.zeroGVolt) * a.adcBits = a1.zAverage * a.refVolt := by
  refine ⟨a.toSensor.pushed rx ry rz, _, Sensor.readPins_eq_pushed _ _ _ _ hidx, ?_, rfl,
    ?_, ?_, ?_⟩
  · simp [Accelerometer.calculate, Accelerometer.readPins,
      Sensor.readPins_eq_pushed _ _ _ _ hidx]
  · simp only []
    field_simp
    ring
  · simp only []
    field_simp
    ring
  · simp only []
    field_simp
    ring

/-- C4 at an Accelerometer constructed in zeroed storage with the constants
3.30, 1023.0, 1.65, 0.330 and the readings `(600, 480, 0)`. -/
theorem accelerometer_conversion_witness :
    ∃ a1, (Accelerometer.ctor Sensor.zeroStorage "ACC" 14 15 16 3.30 1023.0 1.65
        0.330).calculate 600 480 0 = some a1 ∧
      a1.xAverage = 75 ∧ a1.yAverage = 60 ∧ a1.zAverage = 0 ∧
      a1.xCalculated = (75 * 3.30 / 1023.0 - 1.65) / 0.330 ∧
      a1.yCalculated = (60 * 3.30 / 1023.0 - 1.65) / 0.330 ∧
      a1.zCalculated = (0 * 3.30 / 1023.0 - 1.65) / 0.330 := by
  obtain ⟨s, a1, hs, ha, rfl, -, -, -⟩ :=
    accelerometer_conversion
      (Accelerometer.ctor Sensor.zeroStorage "ACC" 14 15 16 3.30 1023.0 1.65 0.330) 600 480 0
      (by simp [Accelerometer.ctor, Sensor.ctor])
      (by norm_num [Accelerometer.ctor]) (by norm_num [Accelerometer.ctor])
  rw [Sensor.readPins_eq_pushed _ _ _ _ (by simp [Sensor.InRange, Accelerometer.ctor, Sensor.ctor])] at hs
  injection hs with hs
  subst hs
  refine ⟨_, ha, ?_, ?_, ?_, ?_, ?_, ?_⟩ <;>
    norm_num [Sensor.pushed, Accelerometer.ctor, Sensor.ctor, Sensor.zeroStorage, Sensor.slot]

/-- C5. End-to-end accelerometer scenario: an Accelerometer constructed in zeroed
storage with `refVolt = 3.30`, `adcBits = 1023.0`, `zeroGVolt = 1.65`,
`sensitivity = 0.330`, after 8 calls `Sensor::readPins(600, 600, 600)` and one
`calculate()` whose ADC readings are again `(600, 600, 600)`, holds
`(600 * 3.30 / 1023.0 - 1.65) / 0.330` in each of `xCalculated`, `yCalculated`,
`zCalculated`, the averages being exactly 600. -/
theorem accelerometer_end_to_end (name : String) (xPin yPin zPin : Int) :
    ∃ a, (Accelerometer.ctor Sensor.zeroStorage name xPin yPin zPin 3.30 1023.0 1.65
        0.330).run (List.replicate 8 (AccCall.readPins 600 600 600) ++
          [AccCall.calculate 600 600 600]) = some a ∧
      a.xAverage = 600 ∧ a.yAverage = 600 ∧ a.zAverage = 600 ∧
      a.xCalculated = (600 * 3.30 / 1023.0 - 1.65) / 0.330 ∧
      a.yCalculated = (600 * 3.30 / 1023.0 - 1.65) / 0.330 ∧
      a.zCalculated = (600 * 3.30 / 1023.0 - 1.65) / 0.330 := by
  simp [List.replicate, Accelerometer.run, Accelerometer.step, Accelerometer.calculate,
    Accelerometer.readPins, Accelerometer.ctor, Sensor.readPins, Sensor.ctor,
    Sensor.zeroStorage, Sensor.NUM_READINGS, Function.update]
  norm_num

/-- C6, the claim as stated fails: with the constants 3.30, 1023.0, 1.65, 0.330,
eight `calculate()` calls with readings alternating between 511 and 512 leave the
X average at 511.5 and `xCalculated` at `(511.5 * 3.30 / 1023.0 - 1.65) / 0.330`,
which is 0 and so is not within 0.0005 of -0.0015. -/
theorem accelerometer_midscale_not_near_minus_0015 :
    ∃ a, (Accelerometer.ctor Sensor.zeroStorage "ACC" 14 15 16 3.30 1023.0 1.65
        0.330).run midscaleCalls = some a ∧
      a.xAverage = 511.5 ∧
      a.xCalculated = (511.5 * 3.30 / 1023.0 - 1.65) / 0.330 ∧
      ¬ (|a.xCalculated - (-0.0015)| ≤ 0.0005) := by
  simp [midscaleCalls, Accelerometer.run, Accelerometer.step, Accelerometer.calculate,
    Accelerometer.readPins, Accelerometer.ctor, Sensor.readPins, Sensor.ctor,
    Sensor.zeroStorage, Sensor.NUM_READINGS, Function.update]
  norm_num
  rw [abs_of_pos (by norm_num)]
  norm_num

/-- C6 as amended. Accelerometer midscale value: with `refVolt = 3.30`,
`adcBits = 1023.0`, `zeroGVolt = 1.65`, `sensitivity = 0.330`, `calculate` from a
state with a valid `valueIndex` succeeds, and whenever it leaves an axis average
at 511.5 the calculated value of that axis is
`(511.5 * 3.30 / 1023.0 - 1.65) / 0.330`, which is exactly 0. -/
theorem accelerometer_midscale (a : Accelerometer) (rx ry rz : Int)
    (hidx : 0 ≤ a.valueIndex ∧ a.valueIndex < 8)
    (hr : a.refVolt = 3.30) (hb : a.adcBits = 1023.0) (hz : a.zeroGVolt = 1.65)
    (hs : a.sensitivity = 0.330) :
    ∃ a1, a.calculate rx ry rz = some a1 ∧
      (a1.xAverage = 511.5 →
        a1.xCalculated = (511.5 * 3.30 / 1023.0 - 1.65) / 0.330 ∧ a1.xCalculated = 0) ∧
      (a1.yAverage = 511.5 →
        a1.yCalculated = (511.5 * 3.30 / 1023.0 - 1.65) / 0.330 ∧ a1.yCalculated = 0) ∧
      (a1.zAverage = 511.5 →
        a1.zCalculated = (511.5 * 3.30 / 1023.0 - 1.65) / 0.330 ∧ a1.zCalculated = 0) := by
  have hcalc : a.calculate rx ry rz = some { a with toSensor := { a.toSensor.pushed rx ry rz with
      xCalculated := ((a.toSensor.pushed rx ry rz).xAverage * a.refVolt / a.adcBits
        - a.zeroGVolt) / a.sensitivity
      yCalculated := ((a.toSensor.pushed rx ry rz).yAverage * a.refVolt / a.adcBits
        - a.zeroGVolt) / a.sensitivity
      zCalculated := ((a.toSensor.pushed rx ry rz).zAverage * a.refVolt / a.adcBits
        - a.zeroGVolt) / a.sensitivity } } := by
    simp [Accelerometer.calculate, Accelerometer.readPins,
      Sensor.readPins_eq_pushed _ _ _ _ hidx]
  refine ⟨_, hcalc, ?_, ?_, ?_⟩
  · intro h
    simp only [] at h ⊢
    rw [h, hr, hb, hz, hs]
    norm_num
  · intro h
    simp only [] at h ⊢
    rw [h, hr, hb, hz, hs]
    norm_num
  · intro h
    simp only [] at h ⊢
    rw [h, hr, hb, hz, hs]
    norm_num

/-- C6 as amended, at a state holding eight readings alternating 511 and 512 and a
further reading of 511: the averages stay at 511.5 and the calculated values
are 0. -/
theorem accelerometer_midscale_witness :
    ∃ a1, (Accelerometer.ctor midscaleStorage "ACC" 14 15 16 3.30 1023.0 1.65
        0.330).calculate 511 511 511 = some a1 ∧
      a1.xAverage = 511.5 ∧ a1.yAverage = 511.5 ∧ a1.zAverage = 511.5 ∧
      a1.xCalculated = 0 ∧ a1.yCalculated = 0 ∧ a1.zCalculated = 0 := by
  obtain ⟨a1, ha, hx, hy, hz⟩ :=
    accelerometer_midscale
      (Accelerometer.ctor midscaleStorage "ACC" 14 15 16 3.30 1023.0 1.65 0.330) 511 511 511
      (by simp [Accelerometer.ctor, Sensor.ctor]) rfl rfl rfl rfl
  have hx1 : a1.xAverage = 511.5 ∧ a1.yAverage = 511.5 ∧ a1.zAverage = 511.5 := by
    simp [Accelerometer.calculate, Accelerometer.readPins, Accelerometer.ctor,
      Sensor.readPins, Sensor.ctor, midscaleStorage, Sensor.zeroStorage,
      Sensor.NUM_READINGS] at ha
    subst ha
    norm_num
  exact ⟨a1, ha, hx1.1, hx1.2.1, hx1.2.2, (hx hx1.1).2, (hy hx1.2.1).2, (hz hx1.2.2).2⟩

/-! ### Gyroscope -/

theorem gyroscope_calculate_some (g : Gyroscope) (bus : Bus) (h : g.toSensor.InRange) :
    g.calculate bus = some { g with toSensor :=
      { g.toSensor.pushed (g.readRaw bus Gyroscope.GYRO_XOUT_H Gyroscope.GYRO_XOUT_L : ℚ)
          (g.readRaw bus Gyroscope.GYRO_YOUT_H Gyroscope.GYRO_YOUT_L : ℚ)
          (g.readRaw bus Gyroscope.GYRO_ZOUT_H Gyroscope.GYRO_ZOUT_L : ℚ) with
        xCalculated := ((g.toSensor.pushed
          (g.readRaw bus Gyroscope.GYRO_XOUT_H Gyroscope.GYRO_XOUT_L : ℚ)
          (g.readRaw bus Gyroscope.GYRO_YOUT_H Gyroscope.GYRO_YOUT_L : ℚ)
          (g.readRaw bus Gyroscope.GYRO_ZOUT_H Gyroscope.GYRO_ZOUT_L : ℚ)).xAverage
            - g.xZero) / Gyroscope.SCALE_FACTOR
        yCalculated := ((g.toSensor.pushed
          (g.readRaw bus Gyroscope.GYRO_XOUT_H Gyroscope.GYRO_XOUT_L : ℚ)
          (g.readRaw bus Gyroscope.GYRO_YOUT_H Gyroscope.GYRO_YOUT_L : ℚ)
          (g.readRaw bus Gyroscope.GYRO_ZOUT_H Gyroscope.GYRO_ZOUT_L : ℚ)).yAverage
            - g.yZero) / Gyroscope.SCALE_FACTOR
        zCalculated := ((g.toSensor.pushed
          (g.readRaw bus Gyroscope.GYRO_XOUT_H Gyroscope.GYRO_XOUT_L : ℚ)
          (g.readRaw bus Gyroscope.GYRO_YOUT_H Gyroscope.GYRO_YOUT_L : ℚ)
          (g.readRaw bus Gyroscope.GYRO_ZOUT_H Gyroscope.GYRO_ZOUT_L : ℚ)).zAverage
            - g.zZero) / Gyroscope.SCALE_FACTOR } } := by
  simp [Gyroscope.calculate, Gyroscope.readPins, Sensor.readPins_eq_pushed _ _ _ _ h,
    Sensor.pushed]

theorem scale_factor_eq : Gyroscope.SCALE_FACTOR = 14.375 := by
  norm_num [Gyroscope.SCALE_FACTOR]

/-- C7. Gyroscope calibration and conversion: from every Gyroscope state with a
valid `valueIndex`, `calculate` pushes the three raw axis readings through
`Sensor::readPins` and sets each `calculated` to `(average - zero) / 14.375` with
the average after the push; and when `setZero()` ran while an axis average was
1500, a following `calculate()` that leaves that average at 1500 yields 0 and one
that leaves it at 1514.375 yields 1. -/
theorem gyroscope_conversion (g : Gyroscope) (bus : Bus)
    (hidx : 0 ≤ g.valueIndex ∧ g.valueIndex < 8) :
    (∃ s g1,
      Sensor.readPins g.toSensor
        (g.readRaw bus Gyroscope.GYRO_XOUT_H Gyroscope.GYRO_XOUT_L : ℚ)
        (g.readRaw bus Gyroscope.GYRO_YOUT_H Gyroscope.GYRO_YOUT_L : ℚ)
        (g.readRaw bus Gyroscope.GYRO_ZOUT_H Gyroscope.GYRO_ZOUT_L : ℚ) = some s ∧
      g.calculate bus = some g1 ∧
      g1 = { g with toSensor := { s with
        xCalculated := (s.xAverage - s.xZero) / 14.375
        yCalculated := (s.yAverage - s.yZero) / 14.375
        zCalculated := (s.zAverage - s.zZero) / 14.375 } } ∧
      s.xZero = g.xZero ∧ s.yZero = g.yZero ∧ s.zZero = g.zZero) ∧
    (∃ g1, g.setZero.calculate bus = some g1 ∧
      (g.xAverage = 1500 → g1.xAverage = 1500 → g1.xCalculated = 0) ∧
      (g.xAverage = 1500 → g1.xAverage = 1514.375 → g1.xCalculated = 1) ∧
      (g.yAverage = 1500 → g1.yAverage = 1500 → g1.yCalculated = 0) ∧
      (g.yAverage = 1500 → g1.yAverage = 1514.375 → g1.yCalculated = 1) ∧
      (g.zAverage = 1500 → g1.zAverage = 1500 → g1.zCalculated = 0) ∧
      (g.zAverage = 1500 → g1.zAverage = 1514.375 → g1.zCalculated = 1)) := by
  constructor
  · refine ⟨_, _, Sensor.readPins_eq_pushed _ _ _ _ hidx, gyroscope_calculate_some g bus hidx,
      ?_, rfl, rfl, rfl⟩
    simp only [scale_factor_eq]
    rfl
  · have hidx1 : g.setZero.toSensor.InRange := hidx
    refine ⟨_, gyroscope_calculate_some g.setZero bus hidx1, ?_, ?_, ?_, ?_, ?_, ?_⟩ <;>
    · intro h0 h1
      simp only [] at h1 ⊢
      rw [h1]
      simp only [Gyroscope.setZero, Sensor.setZero, h0, scale_factor_eq]
      norm_num

/-- C7 at a stationary gyroscope (all averages 1500) zeroed by `setZero()`, then
reading raw 1615 on X and raw 1500 on Y and Z: X moves to 1514.375 and yields 1,
Y and Z stay at 1500 and yield 0. -/
theorem gyroscope_conversion_witness :
    ∃ g1, (Gyroscope.ctor calibratedStorage).setZero.calculate sampleBus = some g1 ∧
      g1.xAverage = 1514.375 ∧ g1.xCalculated = 1 ∧
      g1.yAverage = 1500 ∧ g1.yCalculated = 0 ∧
      g1.zAverage = 1500 ∧ g1.zCalculated = 0 := by
  obtain ⟨-, g1, hg, hx0, hx1, hy0, -, hz0, -⟩ :=
    gyroscope_conversion (Gyroscope.ctor calibratedStorage) sampleBus
      (by simp [Gyroscope.ctor, Sensor.ctor])
  have rx : (Gyroscope.ctor calibratedStorage).setZero.readRaw sampleBus
      Gyroscope.GYRO_XOUT_H Gyroscope.GYRO_XOUT_L = 1615 := by decide
  have ry : (Gyroscope.ctor calibratedStorage).setZero.readRaw sampleBus
      Gyroscope.GYRO_YOUT_H Gyroscope.GYRO_YOUT_L = 1500 := by decide
  have rz : (Gyroscope.ctor calibratedStorage).setZero.readRaw sampleBus
      Gyroscope.GYRO_ZOUT_H Gyroscope.GYRO_ZOUT_L = 1500 := by decide
  have hav : g1.xAverage = 1514.375 ∧ g1.yAverage = 1500 ∧ g1.zAverage = 1500 := by
    rw [gyroscope_calculate_some _ _ (by simp [Sensor.InRange, Gyroscope.setZero,
      Sensor.setZero, Gyroscope.ctor, Sensor.ctor]), rx, ry, rz] at hg
    injection hg with hg
    subst hg
    norm_num [Sensor.pushed, Sensor.slot, Gyroscope.setZero, Sensor.setZero, Gyroscope.ctor,
      Sensor.ctor, calibratedStorage, Sensor.zeroStorage]
  exact ⟨g1, hg, hav.1, hx1 rfl hav.1, hav.2.1, hy0 rfl hav.2.1, hav.2.2, hz0 rfl hav.2.2⟩

theorem ldiff_low (k l : Nat) (hl : l < 256) :
    Nat.ldiff (256 * k + 255) l = 256 * k + (255 - l) := by
  apply Nat.eq_of_testBit_eq
  intro i
  have e1 : 256 * k + 255 = 2 ^ 8 * k + (2 ^ 8 - (0 + 1)) := by norm_num
  have e2 : 256 * k + (255 - l) = 2 ^ 8 * k + (2 ^ 8 - (l + 1)) := by omega
  have hl8 : l < 2 ^ 8 := by omega
  rw [Nat.testBit_ldiff, e1, e2,
    Nat.testBit_mul_pow_two_add k (by omega : 2 ^ 8 - (0 + 1) < 2 ^ 8) i,
    Nat.testBit_mul_pow_two_add k (by omega : 2 ^ 8 - (l + 1) < 2 ^ 8) i]
  by_cases hi : i < 8
  · simp only [hi, if_true]
    rw [Nat.testBit_two_pow_sub_succ (by norm_num : 0 < 2 ^ 8) i,
      Nat.testBit_two_pow_sub_succ hl8 i]
    simp [hi]
  · have : l < 2 ^ i := lt_of_lt_of_le hl8 (Nat.pow_le_pow_right (by norm_num) (by omega))
    simp [hi, Nat.testBit_lt_two_pow this]

/-- Assembly of two bytes into an `int16_t`. -/
theorem assemble_bytes (h l : Nat) (hh : h < 256) (hl : l < 256) :
    toInt16 (Int.lor (toInt16 ((h <<< 8 : Nat) : Int)) (l : Int)) =
      if h < 128 then (256 * h + l : Int) else 256 * h + l - 65536 := by
  rw [Nat.shiftLeft_eq]
  by_cases h128 : h < 128
  · have e1 : toInt16 ((h * 2 ^ 8 : Nat) : Int) = ((2 ^ 8 * h : Nat) : Int) := by
      unfold toInt16
      push_cast
      omega
    have e2 : Int.lor ((2 ^ 8 * h : Nat) : Int) (l : Int) = ((2 ^ 8 * h ||| l : Nat) : Int) := rfl
    rw [e1, e2, ← Nat.mul_add_lt_is_or (by omega : l < 2 ^ 8) h, if_pos h128]
    unfold toInt16
    push_cast
    omega
  · have e1 : toInt16 ((h * 2 ^ 8 : Nat) : Int) = Int.negSucc (256 * (255 - h) + 255) := by
      unfold toInt16
      rw [Int.negSucc_eq]
      push_cast
      omega
    have e2 : Int.lor (Int.negSucc (256 * (255 - h) + 255)) (l : Int)
        = Int.negSucc (Nat.ldiff (256 * (255 - h) + 255) l) := rfl
    rw [e1, e2, ldiff_low _ _ hl, if_neg h128]
    unfold toInt16
    rw [Int.negSucc_eq]
    push_cast
    omega


/-- C8. Gyroscope raw-value assembly: when the high-register and low-register
reads return the bytes `h` and `l` (both below 256), `readRaw` returns
`256 * h + l` when `h < 128` and `256 * h + l - 65536` when `h ≥ 128`: the signed
16-bit value whose bits 15..8 are `h` and whose bits 7..0 are `l`. -/
theorem readRaw_assembly (g : Gyroscope) (bus : Bus) (high low h l : Nat)
    (hhigh : bus g.itgAddress high = some h) (hlow : bus g.itgAddress low = some l)
    (hh : h < 256) (hl : l < 256) :
    g.readRaw bus high low = (if h < 128 then (256 * h + l : Int) else 256 * h + l - 65536) ∧
    -32768 ≤ g.readRaw bus high low ∧ g.readRaw bus high low ≤ 32767 ∧
    g.readRaw bus high low % 65536 / 256 = h ∧ g.readRaw bus high low % 256 = l := by
  have e : g.readRaw bus high low =
      (if h < 128 then (256 * h + l : Int) else 256 * h + l - 65536) := by
    simp only [Gyroscope.readRaw, Gyroscope.itgRead, hhigh, hlow, Nat.mod_eq_of_lt hh,
      Nat.mod_eq_of_lt hl]
    exact assemble_bytes h l hh hl
  rw [e]
  refine ⟨rfl, ?_, ?_, ?_, ?_⟩ <;> split_ifs <;> omega

/-- C8 at the bytes 0x01, 0x02 (result 258) and at the bytes 0xFF, 0xFE
(result -2). -/
theorem readRaw_assembly_witness :
    (Gyroscope.ctor Sensor.zeroStorage).readRaw
      (fun _ r => if r = 0x1D then some 0x01 else some 0x02) 0x1D 0x1E = 258 ∧
    (Gyroscope.ctor Sensor.zeroStorage).readRaw
      (fun _ r => if r = 0x1D then some 0xFF else some 0xFE) 0x1D 0x1E = -2 := by
  constructor
  · simpa using (readRaw_assembly (Gyroscope.ctor Sensor.zeroStorage)
      (fun _ r => if r = 0x1D then some 0x01 else some 0x02) 0x1D 0x1E 0x01 0x02
      (by decide) (by decide) (by decide) (by decide)).1
  · simpa using (readRaw_assembly (Gyroscope.ctor Sensor.zeroStorage)
      (fun _ r => if r = 0x1D then some 0xFF else some 0xFE) 0x1D 0x1E 0xFF 0xFE
      (by decide) (by decide) (by decide) (by decide)).1

/-- C9. Effect and frame of `setZero`: for every Sensor state, after
`Sensor::setZero()` the three zero baselines equal the three averages held before
the call, the readings arrays, totals, averages, `valueIndex`, name and calculated
outputs are unchanged, and a second `setZero()` changes nothing. -/
theorem setZero_effect_and_frame (s : Sensor) :
    s.setZero.xZero = s.xAverage ∧ s.setZero.yZero = s.yAverage ∧
    s.setZero.zZero = s.zAverage ∧
    s.setZero.xReadings = s.xReadings ∧ s.setZero.yReadings = s.yReadings ∧
    s.setZero.zReadings = s.zReadings ∧
    s.setZero.xTotal = s.xTotal ∧ s.setZero.yTotal = s.yTotal ∧
    s.setZero.zTotal = s.zTotal ∧
    s.setZero.xAverage = s.xAverage ∧ s.setZero.yAverage = s.yAverage ∧
    s.setZero.zAverage = s.zAverage ∧
    s.setZero.valueIndex = s.valueIndex ∧ s.setZero.name = s.name ∧
    s.setZero.xCalculated = s.xCalculated ∧ s.setZero.yCalculated = s.yCalculated ∧
    s.setZero.zCalculated = s.zCalculated ∧
    s.setZero.setZero = s.setZero :=
  ⟨rfl, rfl, rfl, rfl, rfl, rfl, rfl, rfl, rfl, rfl, rfl, rfl, rfl, rfl, rfl, rfl, rfl, rfl⟩

theorem gyroscope_step_zero (g : Gyroscope) (c : GyroCall) (hc : c ≠ GyroCall.setZero)
    (h : g.toSensor.InRange) :
    ∃ g1, g.step c = some g1 ∧ g1.toSensor.InRange ∧
      g1.xZero = g.xZero ∧ g1.yZero = g.yZero ∧ g1.zZero = g.zZero := by
  cases c with
  | readPins x y z =>
    refine ⟨{ g with toSensor := g.toSensor.pushed x y z }, ?_, ?_, rfl, rfl, rfl⟩
    · simp [Gyroscope.step, Sensor.readPins_eq_pushed _ _ _ _ h]
    · exact Sensor.pushed_inRange _ _ _ _
  | setZero => exact absurd rfl hc
  | calculate bus =>
    refine ⟨_, gyroscope_calculate_some g bus h, ?_, rfl, rfl, rfl⟩
    show 0 ≤ (g.valueIndex + 1) % 8 ∧ (g.valueIndex + 1) % 8 < 8
    omega

theorem gyroscope_run_zero (calls : List GyroCall) (g : Gyroscope)
    (hc : ∀ c ∈ calls, c ≠ GyroCall.setZero) (h : g.toSensor.InRange) :
    ∃ g1, g.run calls = some g1 ∧ g1.toSensor.InRange ∧
      g1.xZero = g.xZero ∧ g1.yZero = g.yZero ∧ g1.zZero = g.zZero := by
  induction calls generalizing g with
  | nil => exact ⟨g, rfl, h, rfl, rfl, rfl⟩
  | cons c rest ih =>
    obtain ⟨g1, h1, hr1, hx1, hy1, hz1⟩ :=
      gyroscope_step_zero g c (hc c (List.mem_cons_self _ _)) h
    obtain ⟨g2, h2, hr2, hx2, hy2, hz2⟩ :=
      ih g1 (fun d hd => hc d (List.mem_cons_of_mem _ hd)) hr1
    exact ⟨g2, by simp [Gyroscope.run, h1, h2], hr2, hx2.trans hx1, hy2.trans hy1,
      hz2.trans hz1⟩

/-- C10, the claim as stated fails: a Gyroscope constructed in storage whose
`xZero` held 1 still has `xZero = 1` although `setZero()` was never called, and
its first `calculate()` (all registers reading 0) leaves `xCalculated` different
from the X average divided by 14.375. -/
theorem gyroscope_zero_not_default :
    (Gyroscope.ctor staleZeroStorage).xZero = 1 ∧
    ∃ g1, (Gyroscope.ctor staleZeroStorage).calculate (fun _ _ => some 0) = some g1 ∧
      g1.xZero = 1 ∧ g1.xAverage = 0 ∧ g1.xCalculated ≠ g1.xAverage / 14.375 := by
  refine ⟨rfl, ?_⟩
  have rx : (Gyroscope.ctor staleZeroStorage).readRaw (fun _ _ => some 0)
      Gyroscope.GYRO_XOUT_H Gyroscope.GYRO_XOUT_L = 0 := by decide
  have ry : (Gyroscope.ctor staleZeroStorage).readRaw (fun _ _ => some 0)
      Gyroscope.GYRO_YOUT_H Gyroscope.GYRO_YOUT_L = 0 := by decide
  have rz : (Gyroscope.ctor staleZeroStorage).readRaw (fun _ _ => some 0)
      Gyroscope.GYRO_ZOUT_H Gyroscope.GYRO_ZOUT_L = 0 := by decide
  rw [gyroscope_calculate_some _ _ (by simp [Sensor.InRange, Gyroscope.ctor, Sensor.ctor]),
    rx, ry, rz]
  refine ⟨_, rfl, rfl, ?_, ?_⟩ <;>
    norm_num [Sensor.pushed, Sensor.slot, Gyroscope.ctor, Sensor.ctor, staleZeroStorage,
      Sensor.zeroStorage, Gyroscope.SCALE_FACTOR]

/-- C10 as amended. Default zero baseline: for a Gyroscope constructed in storage
whose three zero members held 0 (zero-initialised storage), the baselines are 0
after construction and after any sequence of `readPins`/`calculate` calls without
`setZero()`, every such sequence succeeds, and a `calculate()` after it sets each
calculated value to the axis average divided by 14.375. -/
theorem gyroscope_default_zero (mem : Sensor) (calls : List GyroCall) (bus : Bus)
    (hx : mem.xZero = 0) (hy : mem.yZero = 0) (hz : mem.zZero = 0)
    (hcalls : ∀ c ∈ calls, c ≠ GyroCall.setZero) :
    (Gyroscope.ctor mem).xZero = 0 ∧ (Gyroscope.ctor mem).yZero = 0 ∧
    (Gyroscope.ctor mem).zZero = 0 ∧
    ∃ g, (Gyroscope.ctor mem).run calls = some g ∧
      g.xZero = 0 ∧ g.yZero = 0 ∧ g.zZero = 0 ∧
      ∃ g1, g.calculate bus = some g1 ∧
        g1.xCalculated = g1.xAverage / 14.375 ∧
        g1.yCalculated = g1.yAverage / 14.375 ∧
        g1.zCalculated = g1.zAverage / 14.375 := by
  have h0 : (Gyroscope.ctor mem).toSensor.InRange := by
    simp [Sensor.InRange, Gyroscope.ctor, Sensor.ctor]
  obtain ⟨g, hg, hr, gx, gy, gz⟩ := gyroscope_run_zero calls (Gyroscope.ctor mem) hcalls h0
  have gx0 : g.xZero = 0 := gx.trans hx
  have gy0 : g.yZero = 0 := gy.trans hy
  have gz0 : g.zZero = 0 := gz.trans hz
  refine ⟨hx, hy, hz, g, hg, gx0, gy0, gz0, _, gyroscope_calculate_some g bus hr, ?_, ?_, ?_⟩
  · simp only [gx0, sub_zero, scale_factor_eq]
  · simp only [gy0, sub_zero, scale_factor_eq]
  · simp only [gz0, sub_zero, scale_factor_eq]

/-- C10 as amended, at a Gyroscope constructed in zeroed storage that runs one
`calculate()` and one `readPins(8, 16, 24)` and then a `calculate()`, every bus
read returning raw 1500 on Y and Z and raw 1615 on X. -/
theorem gyroscope_default_zero_witness :
    ∃ g, (Gyroscope.ctor Sensor.zeroStorage).run
        [GyroCall.calculate sampleBus, GyroCall.readPins 8 16 24] = some g ∧
      g.xZero = 0 ∧ g.yZero = 0 ∧ g.zZero = 0 ∧
      ∃ g1, g.calculate sampleBus = some g1 ∧
        g1.xCalculated = g1.xAverage / 14.375 ∧
        g1.yCalculated = g1.yAverage / 14.375 ∧
        g1.zCalculated = g1.zAverage / 14.375 :=
  (gyroscope_default_zero Sensor.zeroStorage
    [GyroCall.calculate sampleBus, GyroCall.readPins 8 16 24] sampleBus rfl rfl rfl
    (by simp)).2.2.2

/-! ### Bus writes and missing replies -/

/-- C11. Gyroscope configuration writes: on a constructed Gyroscope `setupGyro`
makes, after `Wire.begin()`, exactly two write transactions to device address
0x69: register 0x16 (DLPF_FS) receives 0x19, then register 0x15 (SMPLRT_DIV)
receives 9.  The value 0x19 is `DLPF_FS_SEL_0 | DLPF_FS_SEL_1 | DLPF_CFG_0`, its
bits 4..3 are 3 and its bits 2..0 are 1, and 1000 / (9 + 1) = 100. -/
theorem setupGyro_writes (mem : Sensor) (wire : List WireCall) :
    (Gyroscope.ctor mem).setupGyro wire = wire ++
      [WireCall.begin,
       WireCall.beginTransmission 0x69, WireCall.write 0x16, WireCall.write 0x19,
       WireCall.endTransmission,
       WireCall.beginTransmission 0x69, WireCall.write 0x15, WireCall.write 9,
       WireCall.endTransmission] ∧
    Gyroscope.DLPF_FS = 0x16 ∧ Gyroscope.SMPLRT_DIV = 0x15 ∧
    (Gyroscope.DLPF_FS_SEL_0 ||| Gyroscope.DLPF_FS_SEL_1 ||| Gyroscope.DLPF_CFG_0) = 0x19 ∧
    ((Gyroscope.DLPF_FS_SEL_0 ||| Gyroscope.DLPF_FS_SEL_1 ||| Gyroscope.DLPF_CFG_0) >>> 3)
      &&& 3 = 3 ∧
    (Gyroscope.DLPF_FS_SEL_0 ||| Gyroscope.DLPF_FS_SEL_1 ||| Gyroscope.DLPF_CFG_0) &&& 7 = 1 ∧
    1000 / (9 + 1) = 100 := by
  refine ⟨?_, rfl, rfl, by decide, by decide, by decide, by decide⟩
  have h : (Gyroscope.DLPF_FS_SEL_0 ||| Gyroscope.DLPF_FS_SEL_1 ||| Gyroscope.DLPF_CFG_0)
      = 0x19 := by decide
  simp [Gyroscope.setupGyro, Gyroscope.itgWrite, Gyroscope.ctor, h, Gyroscope.DLPF_FS,
    Gyroscope.SMPLRT_DIV]

/-- C12. Silent degradation on a missing bus reply: `itgRead` returns 0 when the
bus has no byte available and the byte read otherwise, it is a total function
into bytes with no error result, and when neither the high-register nor the
low-register read yields data `readRaw` returns 0, the same value it returns when
both registers hold a valid 0. -/
theorem itgRead_silent_degradation (g : Gyroscope) (bus : Bus) (high low : Nat)
    (hhigh : bus g.itgAddress high = none) (hlow : bus g.itgAddress low = none) :
    (∀ (b2 : Bus) (a r : Nat), b2 a r = none → Gyroscope.itgRead b2 a r = 0) ∧
    (∀ (b2 : Bus) (a r b : Nat), b2 a r = some b → b < 256 → Gyroscope.itgRead b2 a r = b) ∧
    (∀ (b2 : Bus) (a r : Nat), Gyroscope.itgRead b2 a r < 256) ∧
    Gyroscope.itgRead bus g.itgAddress high = 0 ∧
    Gyroscope.itgRead bus g.itgAddress low = 0 ∧
    g.readRaw bus high low = 0 ∧
    g.readRaw bus high low = g.readRaw (fun _ _ => some 0) high low := by
  have hnone : ∀ (b2 : Bus) (a r : Nat), b2 a r = none → Gyroscope.itgRead b2 a r = 0 := by
    intro b2 a r h
    simp [Gyroscope.itgRead, h]
  have hsome : ∀ (b2 : Bus) (a r b : Nat), b2 a r = some b → b < 256 →
      Gyroscope.itgRead b2 a r = b := by
    intro b2 a r b h hb
    simp [Gyroscope.itgRead, h, Nat.mod_eq_of_lt hb]
  have hlt : ∀ (b2 : Bus) (a r : Nat), Gyroscope.itgRead b2 a r < 256 := by
    intro b2 a r
    unfold Gyroscope.itgRead
    cases b2 a r with
    | none => simp
    | some b => exact Nat.mod_lt _ (by norm_num)
  have hraw : g.readRaw bus high low = 0 := by
    simp only [Gyroscope.readRaw, hnone bus _ _ hhigh, hnone bus _ _ hlow]
    decide
  have hzero : g.readRaw (fun _ _ => some 0) high low = 0 := by
    simp only [Gyroscope.readRaw, hsome (fun _ _ => some 0) _ _ 0 rfl (by norm_num)]
    decide
  exact ⟨hnone, hsome, hlt, hnone bus _ _ hhigh, hnone bus _ _ hlow, hraw,
    hraw.trans hzero.symm⟩

/-- C12 on a bus that never has a byte available: the X raw value is 0. -/
theorem itgRead_silent_degradation_witness :
    Gyroscope.itgRead (fun _ _ => none) 0x69 Gyroscope.GYRO_XOUT_H = 0 ∧
    (Gyroscope.ctor Sensor.zeroStorage).readRaw (fun _ _ => none)
      Gyroscope.GYRO_XOUT_H Gyroscope.GYRO_XOUT_L = 0 := by
  have h := itgRead_silent_degradation (Gyroscope.ctor Sensor.zeroStorage) (fun _ _ => none)
    Gyroscope.GYRO_XOUT_H Gyroscope.GYRO_XOUT_L rfl rfl
  exact ⟨h.2.2.2.1, h.2.2.2.2.2.1⟩

/-! ### One axis -/

theorem axis_push_error (A : Axis) (i : Fin 8) (v : ℚ) :
    (A.push i v).total - sumReadings (A.push i v).readings
      = A.total - sumReadings A.readings := by
  simp only [Axis.push, sumReadings_update]
  ring

theorem axis_pushSeq_error (vs : List ℚ) (A : Axis) (i : Fin 8) :
    (A.pushSeq i vs).total - sumReadings (A.pushSeq i vs).readings
      = A.total - sumReadings A.readings := by
  induction vs generalizing A i with
  | nil => rfl
  | cons v rest ih => rw [Axis.pushSeq, ih, axis_push_error]

theorem axis_pushSeq_average_of (vs : List ℚ) (A : Axis) (i : Fin 8)
    (h : A.average = A.total / 8) :
    (A.pushSeq i vs).average = (A.pushSeq i vs).total / 8 := by
  induction vs generalizing A i with
  | nil => exact h
  | cons v rest ih => exact ih (A.push i v) (i + 1) rfl

theorem axis_pushSeq_average (vs : List ℚ) (A : Axis) (i : Fin 8) (hvs : vs ≠ []) :
    (A.pushSeq i vs).average = (A.pushSeq i vs).total / 8 := by
  cases vs with
  | nil => exact absurd rfl hvs
  | cons v rest => exact axis_pushSeq_average_of rest (A.push i v) (i + 1) rfl

theorem axis_pushSeq_append (u w : List ℚ) (A : Axis) (i : Fin 8) :
    ∃ k : Fin 8, A.pushSeq i (u ++ w) = (A.pushSeq i u).pushSeq k w := by
  induction u generalizing A i with
  | nil => exact ⟨i, rfl⟩
  | cons v rest ih => exact ih (A.push i v) (i + 1)

theorem axis_push_eight (A : Axis) (i : Fin 8) (a0 a1 a2 a3 a4 a5 a6 a7 : ℚ) :
    sumReadings (A.pushSeq i [a0, a1, a2, a3, a4, a5, a6, a7]).readings
      = a0 + a1 + a2 + a3 + a4 + a5 + a6 + a7 := by
  fin_cases i <;> simp [Axis.pushSeq, Axis.push, sumReadings, Function.update] <;> ring

theorem list_length_eight (w : List ℚ) (h : w.length = 8) :
    ∃ a0 a1 a2 a3 a4 a5 a6 a7, w = [a0, a1, a2, a3, a4, a5, a6, a7] := by
  rcases w with _ | ⟨a0, _ | ⟨a1, _ | ⟨a2, _ | ⟨a3, _ | ⟨a4, _ | ⟨a5, _ | ⟨a6, _ | ⟨a7, _ | ⟨a8, t⟩⟩⟩⟩⟩⟩⟩⟩⟩ <;>
    simp at h
  exact ⟨a0, a1, a2, a3, a4, a5, a6, a7, rfl⟩

theorem axis_pushSeq_sum (vs : List ℚ) (A : Axis) (i : Fin 8) (h : 8 ≤ vs.length) :
    sumReadings (A.pushSeq i vs).readings = lastSum vs := by
  have hsplit : vs = vs.take (vs.length - 8) ++ vs.drop (vs.length - 8) :=
    (List.take_append_drop _ _).symm
  have hlen : (vs.drop (vs.length - 8)).length = 8 := by
    rw [List.length_drop]
    omega
  obtain ⟨a0, a1, a2, a3, a4, a5, a6, a7, hw⟩ := list_length_eight _ hlen
  have hlast : lastSum vs = a0 + a1 + a2 + a3 + a4 + a5 + a6 + a7 := by
    unfold lastSum
    rw [min_eq_right h, hw]
    simp
    ring
  obtain ⟨k, hk⟩ := axis_pushSeq_append (vs.take (vs.length - 8)) (vs.drop (vs.length - 8)) A i
  rw [← hsplit] at hk
  rw [hk, hw, axis_push_eight, hlast]

/-! ### The Sensor seen axis by axis -/

theorem sensor_pushed_slot (s : Sensor) (x y z : ℚ) (h : s.InRange) :
    (s.pushed x y z).slot = s.slot + 1 := by
  obtain ⟨h0, h8⟩ := h
  apply Fin.ext
  rw [Fin.val_add]
  simp only [Sensor.slot, Sensor.pushed, Fin.val_one]
  omega

/-- From a state with a valid index every sequence of pushes succeeds; the index
advances modulo 8, each axis evolves by its own pushes, and nothing else changes. -/
theorem sensor_run_axes (l : List (ℚ × ℚ × ℚ)) (s : Sensor) (h : s.InRange) :
    ∃ s1, s.readPinsSeq l = some s1 ∧ s1.InRange ∧
      s1.valueIndex = (((s.valueIndex.toNat + l.length) % 8 : ℕ) : ℤ) ∧
      s1.xAxis = s.xAxis.pushSeq s.slot (l.map fun p => p.1) ∧
      s1.yAxis = s.yAxis.pushSeq s.slot (l.map fun p => p.2.1) ∧
      s1.zAxis = s.zAxis.pushSeq s.slot (l.map fun p => p.2.2) := by
  induction l generalizing s with
  | nil =>
    refine ⟨s, rfl, h, ?_, rfl, rfl, rfl⟩
    obtain ⟨h0, h8⟩ := h
    simp only [List.length_nil]
    omega
  | cons q rest ih =>
    obtain ⟨x, y, z⟩ := q
    obtain ⟨s1, hrun, hr, hidx, hx, hy, hz⟩ := ih (s.pushed x y z) (Sensor.pushed_inRange _ _ _ _)
    rw [sensor_pushed_slot s x y z h] at hx hy hz
    refine ⟨s1, ?_, hr, ?_, hx, hy, hz⟩
    · simp [Sensor.readPinsSeq, Sensor.readPins_eq_pushed _ _ _ _ h, hrun]
    · obtain ⟨h0, h8⟩ := h
      rw [hidx]
      simp only [Sensor.pushed, List.length_cons]
      omega

theorem sensor_run_out_of_range (l : List (ℚ × ℚ × ℚ)) (s : Sensor) (h : ¬ s.InRange)
    (hl : l ≠ []) : s.readPinsSeq l = none := by
  cases l with
  | nil => exact absurd rfl hl
  | cons q rest =>
    obtain ⟨x, y, z⟩ := q
    have : s.readPins x y z = none := by
      have h1 : ¬ (0 ≤ s.valueIndex ∧ s.valueIndex < 8) := h
      unfold Sensor.readPins
      rw [dif_neg h1]
    simp [Sensor.readPinsSeq, this]

theorem accelerometer_step_inRange (a : Accelerometer) (c : AccCall)
    (h : a.toSensor.InRange) : ∃ a1, a.step c = some a1 ∧ a1.toSensor.InRange := by
  cases c with
  | readPins x y z =>
    refine ⟨{ a with toSensor := a.toSensor.pushed x y z }, ?_, Sensor.pushed_inRange _ _ _ _⟩
    simp [Accelerometer.step, Sensor.readPins_eq_pushed _ _ _ _ h]
  | setZero => exact ⟨a.setZero, rfl, h⟩
  | calculate rx ry rz =>
    obtain ⟨a1, h1, hi, -⟩ := accelerometer_calculate_eq a rx ry rz h
    have hp := Sensor.pushed_inRange a.toSensor rx ry rz
    exact ⟨a1, h1, by simpa only [Sensor.InRange, hi] using hp⟩

theorem gyroscope_step_inRange (g : Gyroscope) (c : GyroCall)
    (h : g.toSensor.InRange) : ∃ g1, g.step c = some g1 ∧ g1.toSensor.InRange := by
  cases c with
  | readPins x y z =>
    refine ⟨{ g with toSensor := g.toSensor.pushed x y z }, ?_, Sensor.pushed_inRange _ _ _ _⟩
    simp [Gyroscope.step, Sensor.readPins_eq_pushed _ _ _ _ h]
  | setZero => exact ⟨g.setZero, rfl, h⟩
  | calculate bus =>
    obtain ⟨x, y, z, -, -, -, g1, h1, hi, -⟩ := gyroscope_calculate_eq g bus h
    have hp := Sensor.pushed_inRange g.toSensor x y z
    exact ⟨g1, h1, by simpa only [Sensor.InRange, hi] using hp⟩

theorem accelerometer_run_inRange (calls : List AccCall) (a : Accelerometer)
    (h : a.toSensor.InRange) : ∃ a1, a.run calls = some a1 ∧ a1.toSensor.InRange := by
  induction calls generalizing a with
  | nil => exact ⟨a, rfl, h⟩
  | cons c rest ih =>
    obtain ⟨a1, h1, hr1⟩ := accelerometer_step_inRange a c h
    obtain ⟨a2, h2, hr2⟩ := ih a1 hr1
    exact ⟨a2, by simp [Accelerometer.run, h1, h2], hr2⟩

theorem gyroscope_run_inRange (calls : List GyroCall) (g : Gyroscope)
    (h : g.toSensor.InRange) : ∃ g1, g.run calls = some g1 ∧ g1.toSensor.InRange := by
  induction calls generalizing g with
  | nil => exact ⟨g, rfl, h⟩
  | cons c rest ih =>
    obtain ⟨g1, h1, hr1⟩ := gyroscope_step_inRange g c h
    obtain ⟨g2, h2, hr2⟩ := ih g1 hr1
    exact ⟨g2, by simp [Gyroscope.run, h1, h2], hr2⟩

theorem sensor_ctor_inRange (mem : Sensor) : (Sensor.ctor mem).InRange := by
  simp [Sensor.InRange, Sensor.ctor]

/-- C13. Index discipline and in-bounds access: whatever the storage held,
`valueIndex` is 0 after construction and `n mod 8` after `n` calls of
`readPins(x, y, z)`, every one of which succeeds; it lies in `[0, 8)` there and in
every state an Accelerometer or Gyroscope reaches through `readPins`, `setZero`
and `calculate` calls, so a further `readPins` subscripts the arrays within
their bounds. -/
theorem index_discipline (mem : Sensor) (l : List (ℚ × ℚ × ℚ)) :
    (Sensor.ctor mem).valueIndex = 0 ∧
    (∃ s, (Sensor.ctor mem).readPinsSeq l = some s ∧
      s.valueIndex = ((l.length % 8 : ℕ) : ℤ) ∧
      0 ≤ s.valueIndex ∧ s.valueIndex < 8 ∧
      ∀ x y z, ∃ s1, s.readPins x y z = some s1) ∧
    (∀ (name : String) (xPin yPin zPin : Int) (refVolt adcBits zeroGVolt sensitivity : ℚ)
        (calls : List AccCall),
      ∃ a, (Accelerometer.ctor mem name xPin yPin zPin refVolt adcBits zeroGVolt
          sensitivity).run calls = some a ∧
        0 ≤ a.valueIndex ∧ a.valueIndex < 8 ∧
        ∀ x y z, ∃ s1, a.toSensor.readPins x y z = some s1) ∧
    (∀ calls : List GyroCall,
      ∃ g, (Gyroscope.ctor mem).run calls = some g ∧
        0 ≤ g.valueIndex ∧ g.valueIndex < 8 ∧
        ∀ x y z, ∃ s1, g.toSensor.readPins x y z = some s1) := by
  refine ⟨rfl, ?_, ?_, ?_⟩
  · obtain ⟨s, hrun, hr, hidx, -⟩ := sensor_run_axes l (Sensor.ctor mem) (sensor_ctor_inRange mem)
    refine ⟨s, hrun, ?_, hr.1, hr.2, fun x y z => ⟨_, Sensor.readPins_eq_pushed s x y z hr⟩⟩
    rw [hidx]
    simp [Sensor.ctor]
  · intro name xPin yPin zPin refVolt adcBits zeroGVolt sensitivity calls
    obtain ⟨a, ha, hr⟩ := accelerometer_run_inRange calls
      (Accelerometer.ctor mem name xPin yPin zPin refVolt adcBits zeroGVolt sensitivity)
      (sensor_ctor_inRange mem)
    exact ⟨a, ha, hr.1, hr.2, fun x y z => ⟨_, Sensor.readPins_eq_pushed _ x y z hr⟩⟩
  · intro calls
    obtain ⟨g, hg, hr⟩ := gyroscope_run_inRange calls (Gyroscope.ctor mem)
      (sensor_ctor_inRange mem)
    exact ⟨g, hg, hr.1, hr.2, fun x y z => ⟨_, Sensor.readPins_eq_pushed _ x y z hr⟩⟩

theorem accelerometer_calculate_some (a : Accelerometer) (rx ry rz : Int)
    (h : a.toSensor.InRange) :
    a.calculate rx ry rz = some { a with toSensor := { a.toSensor.pushed rx ry rz with
      xCalculated := ((a.toSensor.pushed rx ry rz).xAverage * a.refVolt / a.adcBits
        - a.zeroGVolt) / a.sensitivity
      yCalculated := ((a.toSensor.pushed rx ry rz).yAverage * a.refVolt / a.adcBits
        - a.zeroGVolt) / a.sensitivity
      zCalculated := ((a.toSensor.pushed rx ry rz).zAverage * a.refVolt / a.adcBits
        - a.zeroGVolt) / a.sensitivity } } := by
  simp [Accelerometer.calculate, Accelerometer.readPins, Sensor.readPins_eq_pushed _ _ _ _ h]

/-- C14. Accelerometer output ignores the zero baselines: from a state with a
valid index, `calculate` with the same ADC readings produces the same
`xCalculated`, `yCalculated`, `zCalculated` whatever values `xZero`, `yZero`,
`zZero` hold, and in particular whether or not `setZero()` was called first. -/
theorem accelerometer_ignores_zero (a : Accelerometer) (zx zy zz : ℚ) (rx ry rz : Int)
    (hidx : 0 ≤ a.valueIndex ∧ a.valueIndex < 8) :
    ∃ a1 a2 a3, a.calculate rx ry rz = some a1 ∧
      ({ a with xZero := zx, yZero := zy, zZero := zz } : Accelerometer).calculate rx ry rz
        = some a2 ∧
      a.setZero.calculate rx ry rz = some a3 ∧
      a2.xCalculated = a1.xCalculated ∧ a2.yCalculated = a1.yCalculated ∧
      a2.zCalculated = a1.zCalculated ∧
      a3.xCalculated = a1.xCalculated ∧ a3.yCalculated = a1.yCalculated ∧
      a3.zCalculated = a1.zCalculated := by
  have h1 : a.toSensor.InRange := hidx
  have h2 : ({ a with xZero := zx, yZero := zy, zZero := zz } : Accelerometer).toSensor.InRange :=
    hidx
  have h3 : a.setZero.toSensor.InRange := hidx
  exact ⟨_, _, _, accelerometer_calculate_some _ rx ry rz h1,
    accelerometer_calculate_some _ rx ry rz h2, accelerometer_calculate_some _ rx ry rz h3,
    rfl, rfl, rfl, rfl, rfl, rfl⟩

/-- C14 at an Accelerometer in zeroed storage and the same one with baselines
7, 8, 9, both reading `(600, 480, 0)`. -/
theorem accelerometer_ignores_zero_witness :
    ∃ a1 a2,
      (Accelerometer.ctor Sensor.zeroStorage "ACC" 14 15 16 3.30 1023.0 1.65
        0.330).calculate 600 480 0 = some a1 ∧
      ({ Accelerometer.ctor Sensor.zeroStorage "ACC" 14 15 16 3.30 1023.0 1.65 0.330 with
          xZero := 7, yZero := 8, zZero := 9 } : Accelerometer).calculate 600 480 0
        = some a2 ∧
      a2.xZero = 7 ∧ a1.xZero = 0 ∧
      a2.xCalculated = a1.xCalculated ∧ a2.yCalculated = a1.yCalculated ∧
      a2.zCalculated = a1.zCalculated := by
  obtain ⟨a1, a2, a3, h1, h2, -, hx, hy, hz, -⟩ :=
    accelerometer_ignores_zero
      (Accelerometer.ctor Sensor.zeroStorage "ACC" 14 15 16 3.30 1023.0 1.65 0.330) 7 8 9
      600 480 0 (by simp [Accelerometer.ctor, Sensor.ctor])
  refine ⟨a1, a2, h1, h2, ?_, ?_, hx, hy, hz⟩
  · simp [Accelerometer.calculate, Accelerometer.readPins, Accelerometer.ctor,
      Sensor.readPins, Sensor.ctor, Sensor.zeroStorage] at h2
    subst h2
    rfl
  · simp [Accelerometer.calculate, Accelerometer.readPins, Accelerometer.ctor,
      Sensor.readPins, Sensor.ctor, Sensor.zeroStorage] at h1
    subst h1
    rfl

theorem axis_after_eight (vs : List ℚ) (A : Axis) (i : Fin 8) (h : 8 ≤ vs.length) :
    (A.pushSeq i vs).average = lastSum vs / 8 + (A.total - sumReadings A.readings) / 8 := by
  have hne : vs ≠ [] := by
    intro e
    rw [e] at h
    simp at h
  have herr := axis_pushSeq_error vs A i
  rw [axis_pushSeq_average vs A i hne, ← axis_pushSeq_sum vs A i h]
  linarith

/-- C15. Initial sum error never washes out: from every Sensor state with a valid
index (whatever its totals and readings hold), every `readPins` call and every
sequence of them succeeds and leaves `total - (sum of the 8 stored readings)` of
each axis as it was; so after 8 or more pushes each average is the mean of the
last 8 samples plus `(initial total - initial sum of readings) / 8`. -/
theorem initial_sum_error_persists (s : Sensor) (l : List (ℚ × ℚ × ℚ))
    (hidx : 0 ≤ s.valueIndex ∧ s.valueIndex < 8) :
    (∀ x y z, ∃ s1, s.readPins x y z = some s1 ∧
      s1.xTotal - sumReadings s1.xReadings = s.xTotal - sumReadings s.xReadings ∧
      s1.yTotal - sumReadings s1.yReadings = s.yTotal - sumReadings s.yReadings ∧
      s1.zTotal - sumReadings s1.zReadings = s.zTotal - sumReadings s.zReadings) ∧
    ∃ s2, s.readPinsSeq l = some s2 ∧
      s2.xTotal - sumReadings s2.xReadings = s.xTotal - sumReadings s.xReadings ∧
      s2.yTotal - sumReadings s2.yReadings = s.yTotal - sumReadings s.yReadings ∧
      s2.zTotal - sumReadings s2.zReadings = s.zTotal - sumReadings s.zReadings ∧
      (8 ≤ l.length →
        s2.xAverage = lastSum (l.map fun p => p.1) / 8
          + (s.xTotal - sumReadings s.xReadings) / 8 ∧
        s2.yAverage = lastSum (l.map fun p => p.2.1) / 8
          + (s.yTotal - sumReadings s.yReadings) / 8 ∧
        s2.zAverage = lastSum (l.map fun p => p.2.2) / 8
          + (s.zTotal - sumReadings s.zReadings) / 8) := by
  constructor
  · intro x y z
    exact ⟨_, Sensor.readPins_eq_pushed s x y z hidx, axis_push_error s.xAxis s.slot x,
      axis_push_error s.yAxis s.slot y, axis_push_error s.zAxis s.slot z⟩
  · obtain ⟨s2, hrun, -, -, hx, hy, hz⟩ := sensor_run_axes l s hidx
    have ex := axis_pushSeq_error (l.map fun p => p.1) s.xAxis s.slot
    have ey := axis_pushSeq_error (l.map fun p => p.2.1) s.yAxis s.slot
    have ez := axis_pushSeq_error (l.map fun p => p.2.2) s.zAxis s.slot
    rw [← hx] at ex
    rw [← hy] at ey
    rw [← hz] at ez
    refine ⟨s2, hrun, ex, ey, ez, fun h8 => ?_⟩
    have ax := axis_after_eight (l.map fun p => p.1) s.xAxis s.slot (by simpa using h8)
    have ay := axis_after_eight (l.map fun p => p.2.1) s.yAxis s.slot (by simpa using h8)
    have az := axis_after_eight (l.map fun p => p.2.2) s.zAxis s.slot (by simpa using h8)
    rw [← hx] at ax
    rw [← hy] at ay
    rw [← hz] at az
    exact ⟨ax, ay, az⟩

/-- C15 at a Sensor constructed in storage whose `xTotal` held 8 over all-zero
readings: after eight pushes of `(1, 1, 1)` the X average is 2 although every X
sample is 1, while the Y and Z averages are 1. -/
theorem initial_sum_error_persists_witness :
    ∃ s2, (Sensor.ctor driftStorage).readPinsSeq (List.replicate 8 (1, 1, 1)) = some s2 ∧
      s2.xAverage = 2 ∧ s2.yAverage = 1 ∧ s2.zAverage = 1 := by
  obtain ⟨-, s2, hrun, -, -, -, hav⟩ :=
    initial_sum_error_persists (Sensor.ctor driftStorage) (List.replicate 8 (1, 1, 1))
      (by simp [Sensor.ctor])
  obtain ⟨hx, hy, hz⟩ := hav (by simp)
  refine ⟨s2, hrun, ?_, ?_, ?_⟩
  · rw [hx]
    norm_num [lastSum, sumReadings, Sensor.ctor, driftStorage, Sensor.zeroStorage]
  · rw [hy]
    norm_num [lastSum, sumReadings, Sensor.ctor, driftStorage, Sensor.zeroStorage]
  · rw [hz]
    norm_num [lastSum, sumReadings, Sensor.ctor, driftStorage, Sensor.zeroStorage]

/-- C16. Axis independence: from every Sensor state, two sequences of
`readPins(x_k, y_k, z_k)` calls of the same length that agree on all X arguments
produce the same `xReadings`, `xTotal` and `xAverage` (and both succeed or both
fail), whatever their Y and Z arguments; likewise for Y and for Z.  From a state
with a valid index both sequences succeed. -/
theorem axis_independence (s : Sensor) (l1 l2 : List (ℚ × ℚ × ℚ))
    (hlen : l1.length = l2.length) :
    ((l1.map fun p => p.1) = (l2.map fun p => p.1) →
      (s.readPinsSeq l1).map (fun t => (t.xReadings, t.xTotal, t.xAverage))
        = (s.readPinsSeq l2).map (fun t => (t.xReadings, t.xTotal, t.xAverage))) ∧
    ((l1.map fun p => p.2.1) = (l2.map fun p => p.2.1) →
      (s.readPinsSeq l1).map (fun t => (t.yReadings, t.yTotal, t.yAverage))
        = (s.readPinsSeq l2).map (fun t => (t.yReadings, t.yTotal, t.yAverage))) ∧
    ((l1.map fun p => p.2.2) = (l2.map fun p => p.2.2) →
      (s.readPinsSeq l1).map (fun t => (t.zReadings, t.zTotal, t.zAverage))
        = (s.readPinsSeq l2).map (fun t => (t.zReadings, t.zTotal, t.zAverage))) ∧
    (0 ≤ s.valueIndex ∧ s.valueIndex < 8 →
      ∃ s1 s2, s.readPinsSeq l1 = some s1 ∧ s.readPinsSeq l2 = some s2) := by
  by_cases hr : s.InRange
  · obtain ⟨s1, h1, -, -, hx1, hy1, hz1⟩ := sensor_run_axes l1 s hr
    obtain ⟨s2, h2, -, -, hx2, hy2, hz2⟩ := sensor_run_axes l2 s hr
    rw [h1, h2]
    refine ⟨fun h => ?_, fun h => ?_, fun h => ?_, fun _ => ⟨s1, s2, rfl, rfl⟩⟩
    · have e : s1.xAxis = s2.xAxis := by rw [hx1, hx2, h]
      exact congrArg (fun A : Axis => some (A.readings, A.total, A.average)) e
    · have e : s1.yAxis = s2.yAxis := by rw [hy1, hy2, h]
      exact congrArg (fun A : Axis => some (A.readings, A.total, A.average)) e
    · have e : s1.zAxis = s2.zAxis := by rw [hz1, hz2, h]
      exact congrArg (fun A : Axis => some (A.readings, A.total, A.average)) e
  · have hboth : s.readPinsSeq l1 = s.readPinsSeq l2 := by
      by_cases hl : l1 = []
      · have hl2 : l2 = [] := by
          rw [hl] at hlen
          exact List.length_eq_zero.mp hlen.symm
        rw [hl, hl2]
      · have hl2 : l2 ≠ [] := by
          intro e
          rw [e] at hlen
          exact hl (List.length_eq_zero.mp hlen)
        rw [sensor_run_out_of_range l1 s hr hl, sensor_run_out_of_range l2 s hr hl2]
    rw [hboth]
    exact ⟨fun _ => rfl, fun _ => rfl, fun _ => rfl, fun h => absurd h hr⟩

/-- C16 at two sequences from a fresh Sensor that agree on X only. -/
theorem axis_independence_witness :
    (Sensor.fresh.readPinsSeq [(1, 2, 3), (4, 5, 6)]).map
        (fun t => (t.xReadings, t.xTotal, t.xAverage))
      = (Sensor.fresh.readPinsSeq [(1, 9, 9), (4, 0, 0)]).map
        (fun t => (t.xReadings, t.xTotal, t.xAverage)) :=
  (axis_independence Sensor.fresh [(1, 2, 3), (4, 5, 6)] [(1, 9, 9), (4, 0, 0)] rfl).1 rfl

theorem list_sum_bounds (lo hi : ℚ) (d : List ℚ) (h : ∀ v ∈ d, lo ≤ v ∧ v ≤ hi) :
    (d.length : ℚ) * lo ≤ d.sum ∧ d.sum ≤ (d.length : ℚ) * hi := by
  induction d with
  | nil => simp
  | cons v rest ih =>
    have hv := h v (List.mem_cons_self _ _)
    have hrest := ih fun w hw => h w (List.mem_cons_of_mem _ hw)
    simp only [List.length_cons, List.sum_cons, Nat.cast_add, Nat.cast_one]
    constructor
    · linarith [hv.1, hrest.1]
    · linarith [hv.2, hrest.2]

theorem lastSum_bounds (lo hi : ℚ) (vs : List ℚ) (h : ∀ v ∈ vs, lo ≤ v ∧ v ≤ hi)
    (hcase : (lo ≤ 0 ∧ 0 ≤ hi) ∨ 8 ≤ vs.length) :
    lo ≤ lastSum vs / 8 ∧ lastSum vs / 8 ≤ hi := by
  have hd : ∀ v ∈ vs.drop (vs.length - min vs.length 8), lo ≤ v ∧ v ≤ hi :=
    fun v hv => h v (List.mem_of_mem_drop hv)
  have hlen : (vs.drop (vs.length - min vs.length 8)).length = min vs.length 8 := by
    rw [List.length_drop]
    omega
  obtain ⟨h1, h2⟩ := list_sum_bounds lo hi _ hd
  rw [hlen] at h1 h2
  have hm : ((min vs.length 8 : ℕ) : ℚ) ≤ 8 := by
    exact_mod_cast min_le_right vs.length 8
  have key : 8 * lo ≤ lastSum vs ∧ lastSum vs ≤ 8 * hi := by
    unfold lastSum
    rcases hcase with ⟨hlo, hhi⟩ | h8
    · constructor
      · nlinarith [mul_nonneg (sub_nonneg.mpr hm) (neg_nonneg.mpr hlo)]
      · nlinarith [mul_nonneg (sub_nonneg.mpr hm) hhi]
    · rw [min_eq_right h8] at h1 h2 ⊢
      constructor
      · exact_mod_cast h1
      · exact_mod_cast h2
  constructor
  · linarith [key.1]
  · linarith [key.2]

/-- C17. Average stays within the sample range: from a fresh Sensor, after
`n ≥ 1` pushes, if every value pushed on an axis lies in `[lo, hi]` and either
`lo ≤ 0 ≤ hi` or `n ≥ 8`, then that axis's average lies in `[lo, hi]`. -/
theorem average_within_range (lo hi : ℚ) (l : List (ℚ × ℚ × ℚ)) (hn : 1 ≤ l.length)
    (hcase : (lo ≤ 0 ∧ 0 ≤ hi) ∨ 8 ≤ l.length) :
    ∃ s, Sensor.fresh.readPinsSeq l = some s ∧
      ((∀ p ∈ l, lo ≤ p.1 ∧ p.1 ≤ hi) → lo ≤ s.xAverage ∧ s.xAverage ≤ hi) ∧
      ((∀ p ∈ l, lo ≤ p.2.1 ∧ p.2.1 ≤ hi) → lo ≤ s.yAverage ∧ s.yAverage ≤ hi) ∧
      ((∀ p ∈ l, lo ≤ p.2.2 ∧ p.2.2 ≤ hi) → lo ≤ s.zAverage ∧ s.zAverage ≤ hi) := by
  have _ := hn
  obtain ⟨s, hrun, hx, hy, hz⟩ := Sensor.fresh_run_average l
  refine ⟨s, hrun, fun h => ?_, fun h => ?_, fun h => ?_⟩
  · rw [hx]
    refine lastSum_bounds lo hi _ ?_ (by simpa using hcase)
    intro v hv
    obtain ⟨p, hp, rfl⟩ := List.mem_map.mp hv
    exact h p hp
  · rw [hy]
    refine lastSum_bounds lo hi _ ?_ (by simpa using hcase)
    intro v hv
    obtain ⟨p, hp, rfl⟩ := List.mem_map.mp hv
    exact h p hp
  · rw [hz]
    refine lastSum_bounds lo hi _ ?_ (by simpa using hcase)
    intro v hv
    obtain ⟨p, hp, rfl⟩ := List.mem_map.mp hv
    exact h p hp

/-- C17 at two pushes of ADC counts in `[0, 1023]`, and at eight pushes of X
values in `[5, 7]`. -/
theorem average_within_range_witness :
    (∃ s, Sensor.fresh.readPinsSeq [(600, 0, 1023), (1023, 512, 0)] = some s ∧
      0 ≤ s.xAverage ∧ s.xAverage ≤ 1023) ∧
    (∃ s, Sensor.fresh.readPinsSeq
        [(5, 0, 0), (6, 0, 0), (7, 0, 0), (5, 0, 0), (6, 0, 0), (7, 0, 0), (5, 0, 0),
         (6, 0, 0)] = some s ∧
      5 ≤ s.xAverage ∧ s.xAverage ≤ 7) := by
  constructor
  · obtain ⟨s, hs, hx, -, -⟩ :=
      average_within_range 0 1023 [(600, 0, 1023), (1023, 512, 0)] (by decide)
        (Or.inl ⟨le_refl _, by norm_num⟩)
    refine ⟨s, hs, hx ?_⟩
    intro p hp
    simp only [List.mem_cons, List.mem_singleton, List.not_mem_nil, or_false] at hp
    rcases hp with rfl | rfl <;> norm_num
  · obtain ⟨s, hs, hx, -, -⟩ :=
      average_within_range 5 7
        [(5, 0, 0), (6, 0, 0), (7, 0, 0), (5, 0, 0), (6, 0, 0), (7, 0, 0), (5, 0, 0),
         (6, 0, 0)] (by decide) (Or.inr (by decide))
    refine ⟨s, hs, hx ?_⟩
    intro p hp
    simp only [List.mem_cons, List.mem_singleton, List.not_mem_nil, or_false] at hp
    rcases hp with rfl | rfl | rfl | rfl | rfl | rfl | rfl | rfl <;> norm_num

/-! ### The smoothing core in double arithmetic -/

/-- With enough fuel `excessBits` finds the binade: the significand
`q / 2^s` has at most 53 bits, and exactly 53 when `s > 0`. -/
theorem excessBits_spec (fuel q : Nat) (h : q ≤ fuel) :
    q / 2 ^ Binary64.Double.excessBits q fuel < 2 ^ 53 ∧
    (Binary64.Double.excessBits q fuel = 0 ∨
      2 ^ 52 ≤ q / 2 ^ Binary64.Double.excessBits q fuel) := by
  induction fuel generalizing q with
  | zero =>
    have hq : q = 0 := by omega
    subst hq
    simp [Binary64.Double.excessBits]
  | succ fuel ih =>
    unfold Binary64.Double.excessBits
    by_cases hlt : q < 2 ^ 53
    · rw [if_pos hlt]
      exact ⟨by simpa using hlt, Or.inl rfl⟩
    · have hq : q / 2 ≤ fuel := by omega
      obtain ⟨h1, h2⟩ := ih (q / 2) hq
      have hdiv : q / 2 ^ (Binary64.Double.excessBits (q / 2) fuel + 1)
          = q / 2 / 2 ^ Binary64.Double.excessBits (q / 2) fuel := by
        rw [pow_succ, Nat.mul_comm, Nat.div_div_eq_div_mul]
      rw [if_neg hlt, hdiv]
      refine ⟨h1, Or.inr ?_⟩
      rcases h2 with h0 | h52
      · rw [h0]
        simp only [pow_zero, Nat.div_one]
        omega
      · exact h52

/-- C2 as stated fails in the code's double arithmetic: the double 0.1 is
`7205759403792794 * 2^-56`, and after eight pushes of it into a fresh Sensor the
X average is `7205759403792793 * 2^-56` (0.09999999999999999), not 0.1. -/
theorem warm_up_ramp_rounds_in_double :
    Binary64.Double.ofRatio 1 10 = Binary64.Double.finite (7205759403792794 * 2 ^ 1018) ∧
    ∃ s, Binary64.Sensor.fresh.readPinsSeq
        (List.replicate 8 (Binary64.Double.ofRatio 1 10, Binary64.Double.ofRatio 1 10,
          Binary64.Double.ofRatio 1 10)) = some s ∧
      s.xAverage = Binary64.Double.finite (7205759403792793 * 2 ^ 1018) ∧
      s.xAverage ≠ Binary64.Double.ofRatio 1 10 := by
  decide!

/-- C3 as stated fails in the code's double arithmetic: after `readPins(2^53, 0, 0)`
and eight `readPins(1, 0, 0)` on a fresh Sensor every X reading is 1.0, so their
sum is 8, while `xTotal` is 1.0 and `xAverage` is 0.125. -/
theorem running_sum_drifts_in_double :
    Binary64.Double.ofInt 1 = Binary64.Double.finite (2 ^ 1074) ∧
    ∃ s, Binary64.Sensor.fresh.readPinsSeq
        ((Binary64.Double.ofInt (2 ^ 53), Binary64.Double.ofInt 0, Binary64.Double.ofInt 0) ::
          List.replicate 8
            (Binary64.Double.ofInt 1, Binary64.Double.ofInt 0, Binary64.Double.ofInt 0))
        = some s ∧
      (∀ i : Fin 8, s.xReadings i = Binary64.Double.ofInt 1) ∧
      Binary64.sumUnits s.xReadings = some (8 * 2 ^ 1074) ∧
      s.xTotal = Binary64.Double.ofInt 1 ∧
      s.xTotal ≠ Binary64.Double.ofInt 8 ∧
      Binary64.errorUnits s.xTotal s.xReadings = some (-7 * 2 ^ 1074) ∧
      s.xAverage = Binary64.Double.ofRatio 1 8 := by
  decide!

/-- C15 as stated fails in the code's double arithmetic: from storage whose
`xTotal` held `2^53` over all-zero readings, one `readPins(1, 0, 0)` changes
`xTotal - (sum of the X readings)` from `2^53` to `2^53 - 1`, and after eight such
pushes the X average is `2^50`, not the mean 1 plus `2^53 / 8`. -/
theorem initial_sum_error_changes_in_double :
    Binary64.errorUnits (Binary64.Sensor.ctor Binary64.staleTotalStorage).xTotal
        (Binary64.Sensor.ctor Binary64.staleTotalStorage).xReadings
      = some (2 ^ 53 * 2 ^ 1074) ∧
    (∃ s1, (Binary64.Sensor.ctor Binary64.staleTotalStorage).readPins
        (Binary64.Double.ofInt 1) (Binary64.Double.ofInt 0) (Binary64.Double.ofInt 0)
        = some s1 ∧
      Binary64.errorUnits s1.xTotal s1.xReadings = some ((2 ^ 53 - 1) * 2 ^ 1074)) ∧
    (∃ s8, (Binary64.Sensor.ctor Binary64.staleTotalStorage).readPinsSeq
        (List.replicate 8
          (Binary64.Double.ofInt 1, Binary64.Double.ofInt 0, Binary64.Double.ofInt 0))
        = some s8 ∧
      (∀ i : Fin 8, s8.xReadings i = Binary64.Double.ofInt 1) ∧
      s8.xAverage = Binary64.Double.ofInt (2 ^ 50) ∧
      s8.xAverage ≠ Binary64.Double.ofInt (1 + 2 ^ 50)) := by
  decide!

/-- C17 as stated fails in the code's double arithmetic: eight pushes of the
double 0.35 (samples in `[0, 0.35]`) leave an average above 0.35; eight pushes of
the double 0.1 (samples in `[0.1, 0.1]`) leave an average below 0.1; and two
pushes of `2^1023` (samples in `[0, 2^1023]`) leave an infinite average. -/
theorem average_leaves_range_in_double :
    (Binary64.Double.le (Binary64.Double.ofInt 0) (Binary64.Double.ofRatio 35 100) = true ∧
      ∃ s, Binary64.Sensor.fresh.readPinsSeq
          (List.replicate 8 (Binary64.Double.ofRatio 35 100, Binary64.Double.ofRatio 35 100,
            Binary64.Double.ofRatio 35 100)) = some s ∧
        Binary64.Double.ofRatio 35 100
          = Binary64.Double.finite (6305039478318694 * 2 ^ 1020) ∧
        s.xAverage = Binary64.Double.finite (6305039478318695 * 2 ^ 1020) ∧
        Binary64.Double.le s.xAverage (Binary64.Double.ofRatio 35 100) = false) ∧
    (∃ s, Binary64.Sensor.fresh.readPinsSeq
        (List.replicate 8 (Binary64.Double.ofRatio 1 10, Binary64.Double.ofRatio 1 10,
          Binary64.Double.ofRatio 1 10)) = some s ∧
      Binary64.Double.le (Binary64.Double.ofRatio 1 10) s.xAverage = false) ∧
    (Binary64.Double.le (Binary64.Double.ofInt 0) (Binary64.Double.ofInt (2 ^ 1023)) = true ∧
      ∃ s, Binary64.Sensor.fresh.readPinsSeq
          (List.replicate 2 (Binary64.Double.ofInt (2 ^ 1023),
            Binary64.Double.ofInt (2 ^ 1023), Binary64.Double.ofInt (2 ^ 1023))) = some s ∧
        s.xAverage = Binary64.Double.inf false ∧
        Binary64.Double.le s.xAverage (Binary64.Double.ofInt (2 ^ 1023)) = false) := by
  decide!

end WearableCrash
